import Mathlib

/-!
Verification of the incremental Android installer
(`src/tools/android/incremental_install.py`) against its specification.

The installer is shallowly embedded: Python strings are Lean `String`s and
the Python `str` primitives used by the tool (`split`, `strip`, `in`,
`join`, `startswith`) are re-implemented structurally over `String.data`
so that they both compute in the kernel and admit induction.
-/

namespace IncInstall

/-- Python `s.split(sep)` for a single-character separator: splits at every
occurrence, keeping empty chunks ("a,,b" gives ["a","","b"], "" gives [""]). -/
def splitOnChar (sep : Char) : List Char → List (List Char)
  | [] => [[]]
  | c :: rest =>
    if c = sep then [] :: splitOnChar sep rest
    else
      match splitOnChar sep rest with
      | [] => [[c]]
      | g :: gs => (c :: g) :: gs

/-- Python `s.split(sep)` on strings, single-character separator. -/
def pySplit (s : String) (sep : Char) : List String :=
  (splitOnChar sep s.data).map (fun cs => String.mk cs)

/-- The characters Python's `str.strip()` removes (string.whitespace). -/
def pyIsSpace (c : Char) : Bool :=
  c = ' ' || c = '\t' || c = '\n' || c = '\x0d' || c = '\x0b' || c = '\x0c'

/-- Python `s.strip()`: whitespace removed from both ends. -/
def pyStrip (s : String) : String :=
  String.mk (((s.data.dropWhile pyIsSpace).reverse.dropWhile pyIsSpace).reverse)

/-- Does `pat` occur as a contiguous subsequence of `s`?  (Python `pat in s`.) -/
def containsSeq (pat : List Char) : List Char → Bool
  | [] => pat.isEmpty
  | c :: rest => pat.isPrefixOf (c :: rest) || containsSeq pat rest

/-- Python `pat in s` on strings. -/
def pyContains (s : String) (pat : String) : Bool :=
  containsSeq pat.data s.data

/-- Python `sep.join(xs)`. -/
def pyJoin (sep : String) : List String → String
  | [] => ""
  | [x] => x
  | x :: y :: rest => x ++ sep ++ pyJoin sep (y :: rest)

/-- The characters after the first occurrence of `pat` in `s`
(`none` when `pat` does not occur). -/
def afterSeq (pat : List Char) : List Char → Option (List Char)
  | [] => if pat.isEmpty then some [] else none
  | c :: rest =>
    if pat.isPrefixOf (c :: rest) then some ((c :: rest).drop pat.length)
    else afterSeq pat rest

/-! ## Manifest model (`ManifestEntry`, `ParseManifest`, lines 253–272) -/

/-- One record of the dex manifest; field order follows the Python
`collections.namedtuple("ManifestEntry", ["input_file", "zippath", "installpath", "sha256"])`. -/
structure ManifestEntry where
  input_file : String
  zippath : String
  installpath : String
  sha256 : String
deriving DecidableEq, Repr

/-- A parsed manifest: a Python dict from install path to entry, represented
as an association list with unique keys (insertion order preserved). -/
abbrev Manifest := List (String × ManifestEntry)

/-- Python dict lookup `m[k]` (as an option). -/
def mlookup : Manifest → String → Option ManifestEntry
  | [], _ => none
  | (k', v) :: rest, k => if k' = k then some v else mlookup rest k

/-- Python dict update `m[k] = v`: overwrite in place if the key exists,
otherwise append. -/
def dictInsert : Manifest → String → ManifestEntry → Manifest
  | [], k, v => [(k, v)]
  | (k', v') :: rest, k, v =>
    if k' = k then (k, v) :: rest else (k', v') :: dictInsert rest k v

/-- Python `set(m)` for a dict: its keys. -/
def mkeys (m : Manifest) : List String := m.map (fun p => p.1)

/-- One line of the manifest: `ManifestEntry(*(l.strip().split(" ")))`.
The namedtuple constructor raises `TypeError` unless the line splits into
exactly four tokens, hence the `Option`. -/
def parseManifestLine (l : String) : Option ManifestEntry :=
  match pySplit (pyStrip l) ' ' with
  | [i, z, p, s] => some ⟨i, z, p, s⟩
  | _ => none

/-- The loop body of `ParseManifest` (line 268–270): each line is parsed and
stored under its install path; the first malformed line aborts the whole
parse (an uncaught Python `TypeError`). -/
def parseLines : List String → Manifest → Option Manifest
  | [], acc => some acc
  | l :: rest, acc =>
    match parseManifestLine l with
    | some e => parseLines rest (dictInsert acc e.installpath e)
    | none => none

/-- `ParseManifest(contents)` (lines 257–272): split on newline, parse every
chunk — the source has no guard for empty lines. -/
def ParseManifest (contents : String) : Option Manifest :=
  parseLines (pySplit contents '\n') []

/-- Spec-side lookup used to state the "keyed by install_path, last entry
wins" property: the last entry of `entries` whose `installpath` is `k`. -/
def specLookup : List ManifestEntry → String → Option ManifestEntry
  | [], _ => none
  | e :: es, k =>
    match specLookup es k with
    | some x => some x
    | none => if e.installpath = k then some e else none

/-! ## Device bridge adapter (`Adb`, lines 97–250)

Each `adb` invocation is resolved by an environment `Env`: `run` gives the
child process's exit code and captured streams for a full argument vector,
`readLocal` gives the contents of a local file (`none` models an `IOError`),
and `checksum` gives the SHA-256 hex digest of a local file (the `hashlib`
library call in `Checksum`, line 393–404, which hashes local bytes that are
outside the device model). -/

/-- Exit code and captured streams of one child `adb` process. -/
structure ExecOut where
  returncode : Int
  stdout : String
  stderr : String
deriving DecidableEq, Repr

/-- What `_Exec` returns on success (line 151): return code, stripped
stdout, stripped stderr, and the argument vector. -/
structure ExecRes where
  returncode : Int
  stdout : String
  stderr : String
  args : List String
deriving DecidableEq, Repr

/-- The installer's error taxonomy: the four exception classes raised by
`_Exec`/`Install` plus `TimestampException`, and `pyError` for an
unclassified Python exception (the `TypeError` from manifest parsing). -/
inductive Err where
  | adbError (args : List String) (returncode : Int) (stdout stderr : String)
  | deviceNotFound
  | deviceUnauthorized
  | multipleDevices (msg : String)
  | timestamp (msg : String)
  | pyError
deriving DecidableEq, Repr

/-- `MultipleDevicesError.CheckError` (line 84–86):
`re.search("more than one (device and emulator|device|emulator)", s)`.
The regex matches iff one of the three literal alternatives occurs in `s`;
the first alternative contains the second, so the search succeeds exactly
when "more than one device" or "more than one emulator" occurs. -/
def MultipleDevicesCheck (s : String) : Bool :=
  pyContains s "more than one device" || pyContains s "more than one emulator"

/-- `re.sub("^error: ", "", stderr)` (line 146): one leading "error: "
removed. -/
def dropErrorLabel (s : String) : String :=
  if "error: ".data.isPrefixOf s.data then String.mk (s.data.drop 7) else s

/-- Static configuration of the adapter: the adb path, the extra adb
arguments inserted before every subcommand, and the run's local temporary
directory. -/
structure Config where
  adbPath : String
  extraAdbArgs : List String
  tempDir : String

/-- The run environment (see the section comment). -/
structure Env where
  run : List String → ExecOut
  readLocal : String → Option String
  checksum : String → String

/-- `_CreateLocalFile` (lines 156–160): the `n`-th temporary local file. -/
def localFile (cfg : Config) (n : Nat) : String :=
  cfg.tempDir ++ "/adbfile_" ++ toString n

/-- The error classification of `_Exec` (lines 129–151), applied to the
captured output of one invocation: the streams are stripped, the three
stderr patterns are checked first (in order), and only then a non-zero
exit raises the generic `AdbError`. -/
def classify (args : List String) (o : ExecOut) : Except Err ExecRes :=
  let stdout := pyStrip o.stdout
  let stderr := pyStrip o.stderr
  if pyContains stderr "device not found" then Except.error Err.deviceNotFound
  else if pyContains stderr "device unauthorized" then Except.error Err.deviceUnauthorized
  else if MultipleDevicesCheck stderr then
    Except.error (Err.multipleDevices (dropErrorLabel stderr))
  else if o.returncode ≠ 0 then
    Except.error (Err.adbError args o.returncode stdout stderr)
  else Except.ok ⟨o.returncode, stdout, stderr, args⟩

/-- `_Exec(adb_args)` (lines 107–151): the full argument vector is the adb
path, the extra adb args, then the command; the child's output is
classified. -/
def execAdb (cfg : Config) (env : Env) (adbArgs : List String) : Except Err ExecRes :=
  let args := cfg.adbPath :: (cfg.extraAdbArgs ++ adbArgs)
  classify args (env.run args)

/-- `_Shell(cmd)` (lines 248–250). -/
def Adb.Shell (cfg : Config) (env : Env) (cmd : String) : Except Err ExecRes :=
  execAdb cfg env ["shell", cmd]

/-- `Pull(remote)` (lines 185–200): pull into a fresh local file and read it
back; `AdbError` and `IOError` are swallowed into `none`, every other
exception (device not found / unauthorized / multiple devices) propagates.
Returns the result and the advanced file counter. -/
def Adb.Pull (cfg : Config) (env : Env) (c : Nat) (remote : String) :
    Except Err (Option String) × Nat :=
  let lp := localFile cfg c
  match execAdb cfg env ["pull", remote, lp] with
  | Except.error (Err.adbError _ _ _ _) => (Except.ok none, c + 1)
  | Except.error e => (Except.error e, c + 1)
  | Except.ok _ =>
    match env.readLocal lp with
    | some contents => (Except.ok (some contents), c + 1)
    | none => (Except.ok none, c + 1)

/-- The outcome of one `push` invocation (the `_Exec` a `Push` future runs,
line 174–176). -/
def pushResult (cfg : Config) (env : Env) (localPath remote : String) : Except Err Unit :=
  match execAdb cfg env ["push", localPath, remote] with
  | Except.error e => Except.error e
  | Except.ok _ => Except.ok ()

/-- `PushString(contents, remote)` followed by `.result()` (lines 178–183):
the string is written to a fresh local file which is then pushed. -/
def Adb.PushString (cfg : Config) (env : Env) (c : Nat) (remote : String) :
    Except Err Unit × Nat :=
  (pushResult cfg env (localFile cfg c) remote, c + 1)

/-- `Mkdir(d)` (lines 236–238). -/
def Adb.Mkdir (cfg : Config) (env : Env) (d : String) : Except Err Unit :=
  match Adb.Shell cfg env ("mkdir -p " ++ d) with
  | Except.error e => Except.error e
  | Except.ok _ => Except.ok ()

/-- `StopApp(package)` (lines 240–242). -/
def Adb.StopApp (cfg : Config) (env : Env) (package : String) : Except Err Unit :=
  match Adb.Shell cfg env ("am force-stop " ++ package) with
  | Except.error e => Except.error e
  | Except.ok _ => Except.ok ()

/-- `StartApp(package)` (lines 244–246). -/
def Adb.StartApp (cfg : Config) (env : Env) (package : String) : Except Err Unit :=
  match Adb.Shell cfg env ("monkey -p " ++ package ++ " -c android.intent.category.LAUNCHER 1") with
  | Except.error e => Except.error e
  | Except.ok _ => Except.ok ()

/-- The first match of `lastUpdateTime=(.*)$` (multiline) in `stdout`
(line 165): the text after the first occurrence, up to the end of its
line. -/
def findLastUpdateTime (stdout : String) : Option String :=
  match afterSeq "lastUpdateTime=".data stdout.data with
  | some rest => some (String.mk (rest.takeWhile (fun ch => ch ≠ '\n')))
  | none => none

/-- `GetInstallTime(package)` (lines 162–172). -/
def Adb.GetInstallTime (cfg : Config) (env : Env) (package : String) : Except Err String :=
  match Adb.Shell cfg env ("dumpsys package " ++ package) with
  | Except.error e => Except.error e
  | Except.ok res =>
    match findLastUpdateTime res.stdout with
    | some t => Except.ok t
    | none => Except.error (Err.timestamp ("Package '" ++ package ++
        "' is not installed on the device. At least one non-incremental 'mobile-install' must precede incremental installs."))

/-- `Install(apk)` (lines 211–224): on top of the usual classification, the
literal token "Success" must appear in one of the captured streams. -/
def Adb.Install (cfg : Config) (env : Env) (apk : String) : Except Err Unit :=
  match execAdb cfg env ["install", "-r", apk] with
  | Except.error e => Except.error e
  | Except.ok res =>
    if !(pyContains res.stderr "Success") && !(pyContains res.stdout "Success") then
      Except.error (Err.adbError res.args res.returncode res.stdout res.stderr)
    else Except.ok ()

/-- The `["-p", pkg] if pkg else []` of `InstallMultiple` (line 205). -/
def pkgArgs : Option String → List String
  | some pkg => ["-p", pkg]
  | none => []

/-- `InstallMultiple(apk, pkg)` (lines 202–209). -/
def Adb.InstallMultiple (cfg : Config) (env : Env) (apk : String) (pkg : Option String) :
    Except Err Unit :=
  match execAdb cfg env (["install-multiple", "-r"] ++ pkgArgs pkg ++ [apk]) with
  | Except.error e => Except.error e
  | Except.ok res =>
    if !(pyContains res.stderr "Success") && !(pyContains res.stdout "Success") then
      Except.error (Err.adbError res.args res.returncode res.stdout res.stderr)
    else Except.ok ()

/-! ## Device-side events

A run's trace records every adb invocation the installer issues, at the
granularity of the adapter's methods (`rm` and `mkdir` are single shell
invocations; a `pushString` is the push of a freshly materialised string).
Pushes in a parallel batch are recorded in submission order. -/

/-- One issued device interaction. -/
inductive Event where
  | mkdir (d : String)
  | pull (remote : String)
  | rm (files : List String)
  | push (localPath remote : String)
  | pushString (contents remote : String)
  | shell (cmd : String)
  | install (apk : String)
  | installMultiple (apk : String) (pkg : Option String)
deriving DecidableEq, Repr

/-- Does the event create, delete or modify a device-side file? -/
def Event.mutatesFile : Event → Bool
  | Event.mkdir _ => true
  | Event.rm _ => true
  | Event.push _ _ => true
  | Event.pushString _ _ => true
  | Event.install _ => true
  | Event.installMultiple _ _ => true
  | Event.pull _ => false
  | Event.shell _ => false

/-- `DeleteMultiple(remote_files)` (lines 230–234): one `rm -fr` shell
invocation, issued only when the joined file list is non-empty.  Returns the
outcome together with the events issued (none for an empty join). -/
def Adb.DeleteMultiple (cfg : Config) (env : Env) (remoteFiles : List String) :
    Except Err Unit × List Event :=
  let filesStr := pyJoin " " remoteFiles
  if filesStr = "" then (Except.ok (), [])
  else
    match Adb.Shell cfg env ("rm -fr " ++ filesStr) with
    | Except.error e => (Except.error e, [Event.rm remoteFiles])
    | Except.ok _ => (Except.ok (), [Event.rm remoteFiles])

/-- `Delete(remote)` (lines 226–228). -/
def Adb.Delete (cfg : Config) (env : Env) (remote : String) :
    Except Err Unit × List Event :=
  Adb.DeleteMultiple cfg env [remote]

/-! ## Dex reconciler (`UploadDexes`, lines 281–390)

Python computes `dexes_to_delete` and `dexes_to_upload` as unordered sets;
here they are lists in a fixed order (the claims about them are stated
set-wise, as membership).  Likewise the batch of parallel pushes is recorded
in submission order, and on a failed batch the first failure in that order
is re-raised (Python re-raises the first failure it meets while iterating
the unordered `done` set). -/

/-- Total projections of `m[k]`; the reconciler only applies them to keys
it has already checked to be present. -/
def entrySha (m : Manifest) (k : String) : String :=
  match mlookup m k with
  | some e => e.sha256
  | none => ""

/-- See `entrySha`. -/
def entryZippath (m : Manifest) (k : String) : String :=
  match mlookup m k with
  | some e => e.zippath
  | none => ""

/-- See `entrySha`. -/
def entryInputFile (m : Manifest) (k : String) : String :=
  match mlookup m k with
  | some e => e.input_file
  | none => ""

/-- `dexes_to_delete = set(old_manifest) - set(new_manifest)` (line 321). -/
def dexesToDelete (oldM newM : Manifest) : List String :=
  (mkeys oldM).filter (fun d => (mlookup newM d).isNone)

/-- `common_dexes = set(new_manifest).intersection(old_manifest)` (line 325). -/
def commonDexes (oldM newM : Manifest) : List String :=
  (mkeys newM).filter (fun d => (mlookup oldM d).isSome)

/-- `dexes_to_upload` (lines 326–328): the common dexes whose checksum
changed, together with the dexes only in the new manifest. -/
def dexesToUpload (oldM newM : Manifest) : List String :=
  (commonDexes oldM newM).filter (fun d => entrySha newM d != entrySha oldM d)
  ++ (mkeys newM).filter (fun d => (mlookup oldM d).isNone)

/-- The `(local, remote)` pairs `files_to_push` (lines 339–362): the entries
sourced from zip bundles (extracted into a per-bundle scratch directory,
bundles numbered in order), then the standalone dex files. -/
def filesToPush (newM : Manifest) (uploads : List String) (tempDir dexDir : String) :
    List (String × String) :=
  let dexzipsInUpload :=
    ((uploads.filter (fun d => entryZippath newM d != "-")).map
      (fun d => entryInputFile newM d)).dedup
  let zipped := dexzipsInUpload.enum.flatMap (fun iz =>
    (uploads.filter (fun d => entryInputFile newM d == iz.2)).map (fun d =>
      (tempDir ++ "/dex/" ++ toString iz.1 ++ "/" ++ entryZippath newM d,
       dexDir ++ "/" ++ d)))
  let direct := (uploads.filter (fun d => entryZippath newM d == "-")).map (fun d =>
    (entryInputFile newM d, dexDir ++ "/" ++ d))
  zipped ++ direct

/-- The push events of a batch, in submission order. -/
def pushBatchEvents (files : List (String × String)) : List Event :=
  files.map (fun p => Event.push p.1 p.2)

/-- The outcome of the parallel push batch (lines 372–385):
`futures.wait(..., FIRST_EXCEPTION)` followed by re-raising the first
observed failure. -/
def pushBatchOutcome (cfg : Config) (env : Env) : List (String × String) → Except Err Unit
  | [] => Except.ok ()
  | p :: rest =>
    match pushResult cfg env p.1 p.2 with
    | Except.error e => Except.error e
    | Except.ok _ => pushBatchOutcome cfg env rest

/-- Lines 320–390 of `UploadDexes`, once both manifests are parsed: diff,
fast path, anchor delete, batch delete, parallel pushes, manifest rewrite.
`evs` are the events already issued by the caller. -/
def uploadPhase (cfg : Config) (env : Env) (c : Nat) (dexDir tempDir dexmanifest : String)
    (oldM newM : Manifest) (evs : List Event) : Except Err Unit × Nat × List Event :=
  let toDel := dexesToDelete oldM newM
  let toUp := dexesToUpload oldM newM
  if toDel = [] ∧ toUp = [] then (Except.ok (), c, evs)
  else
    match Adb.Delete cfg env (dexDir ++ "/manifest") with
    | (Except.error e, aev) => (Except.error e, c, evs ++ aev)
    | (Except.ok _, aev) =>
      let ftp := filesToPush newM toUp tempDir dexDir
      match Adb.DeleteMultiple cfg env (toDel.map (fun d => dexDir ++ "/" ++ d)) with
      | (Except.error e, dev) => (Except.error e, c, evs ++ aev ++ dev)
      | (Except.ok _, dev) =>
        match pushBatchOutcome cfg env ftp with
        | Except.error e => (Except.error e, c, evs ++ aev ++ dev ++ pushBatchEvents ftp)
        | Except.ok _ =>
          match Adb.PushString cfg env c (dexDir ++ "/manifest") with
          | (res, c1) =>
            (res, c1, evs ++ aev ++ dev ++ pushBatchEvents ftp ++
              [Event.pushString dexmanifest (dexDir ++ "/manifest")])

/-- Lines 313–318 followed by the rest of `UploadDexes`: the old manifest is
unknown, so the dex directory is wiped (`rm -fr {dex_dir}/*`) and the old
manifest taken to be empty. -/
def wipeThenPhase (cfg : Config) (env : Env) (c : Nat) (dexDir tempDir dexmanifest : String)
    (evs : List Event) : Except Err Unit × Nat × List Event :=
  match Adb.Delete cfg env (dexDir ++ "/*") with
  | (Except.error e, wev) => (Except.error e, c, evs ++ wev)
  | (Except.ok _, wev) =>
    match ParseManifest dexmanifest with
    | none => (Except.error Err.pyError, c, evs ++ wev)
    | some newM => uploadPhase cfg env c dexDir tempDir dexmanifest [] newM (evs ++ wev)

/-- `UploadDexes(adb, execroot, app_dir, temp_dir, dexmanifest, full_install)`
(lines 281–390).  The zip extraction (lines 346–355) is local-only and its
local scratch paths appear in the push events via `filesToPush`. -/
def UploadDexes (cfg : Config) (env : Env) (c : Nat) (appDir tempDir dexmanifest : String)
    (fullInstall : Bool) : Except Err Unit × Nat × List Event :=
  let dexDir := appDir ++ "/dex"
  match Adb.Mkdir cfg env dexDir with
  | Except.error e => (Except.error e, c, [Event.mkdir dexDir])
  | Except.ok _ =>
    if fullInstall then
      wipeThenPhase cfg env c dexDir tempDir dexmanifest [Event.mkdir dexDir]
    else
      match Adb.Pull cfg env c (dexDir ++ "/manifest") with
      | (Except.error e, c1) =>
        (Except.error e, c1, [Event.mkdir dexDir, Event.pull (dexDir ++ "/manifest")])
      | (Except.ok oldContents, c1) =>
        match oldContents with
        | none =>
          wipeThenPhase cfg env c1 dexDir tempDir dexmanifest
            [Event.mkdir dexDir, Event.pull (dexDir ++ "/manifest")]
        | some s =>
          if s = "" then
            wipeThenPhase cfg env c1 dexDir tempDir dexmanifest
              [Event.mkdir dexDir, Event.pull (dexDir ++ "/manifest")]
          else
            match ParseManifest s with
            | none =>
              (Except.error Err.pyError, c1,
                [Event.mkdir dexDir, Event.pull (dexDir ++ "/manifest")])
            | some oldM =>
              match ParseManifest dexmanifest with
              | none =>
                (Except.error Err.pyError, c1,
                  [Event.mkdir dexDir, Event.pull (dexDir ++ "/manifest")])
              | some newM =>
                uploadPhase cfg env c1 dexDir tempDir dexmanifest oldM newM
                  [Event.mkdir dexDir, Event.pull (dexDir ++ "/manifest")]

/-! ## Resource reconciler (`UploadResources`, lines 407–436) -/

/-- `UploadResources(adb, resource_apk, app_dir)`.  The SHA-256 of the local
archive (`Checksum`, lines 393–404) is `env.checksum resource_apk`. -/
def UploadResources (cfg : Config) (env : Env) (c : Nat) (resourceApk appDir : String) :
    Except Err Unit × Nat × List Event :=
  let newChecksum := env.checksum resourceApk
  let deviceChecksumFile := appDir ++ "/resources_checksum"
  match Adb.Pull cfg env c deviceChecksumFile with
  | (Except.error e, c1) => (Except.error e, c1, [Event.pull deviceChecksumFile])
  | (Except.ok oldChecksum, c1) =>
    if oldChecksum = some newChecksum then
      (Except.ok (), c1, [Event.pull deviceChecksumFile])
    else
      match Adb.Delete cfg env deviceChecksumFile with
      | (Except.error e, dev) => (Except.error e, c1, Event.pull deviceChecksumFile :: dev)
      | (Except.ok _, dev) =>
        match pushResult cfg env resourceApk (appDir ++ "/resources.ap_") with
        | Except.error e =>
          (Except.error e, c1,
            Event.pull deviceChecksumFile :: (dev ++
              [Event.push resourceApk (appDir ++ "/resources.ap_")]))
        | Except.ok _ =>
          match Adb.PushString cfg env c1 deviceChecksumFile with
          | (res, c2) =>
            (res, c2,
              Event.pull deviceChecksumFile :: (dev ++
                [Event.push resourceApk (appDir ++ "/resources.ap_"),
                 Event.pushString newChecksum deviceChecksumFile]))

/-! ## Timestamp guard and orchestrator (lines 439–526) -/

/-- The fixed device root (line 57). -/
def DEVICE_DIRECTORY : String := "/data/local/tmp/incrementaldeployment"

/-- The message of the `TimestampException` for a missing anchor
(lines 444–446). -/
def verifyAbsentMsg : String :=
  "Cannot verify last mobile install. At least one non-incremental 'mobile-install' must precede incremental installs"

/-- The message of the `TimestampException` for a mismatching anchor
(lines 450–452). -/
def verifyMismatchMsg (appPackage : String) : String :=
  "Installed app '" ++ appPackage ++
    "' has an unexpected timestamp. Did you last install the app in a way other than 'mobile-install'?"

/-- `VerifyInstallTimestamp(adb, app_package)` (lines 439–452): pull the
anchor; a falsy result (absent file, or a present but empty one) raises;
then compare with the package manager's `lastUpdateTime`. -/
def VerifyInstallTimestamp (cfg : Config) (env : Env) (c : Nat) (appPackage : String) :
    Except Err Unit × Nat × List Event :=
  let tsPath := DEVICE_DIRECTORY ++ "/" ++ appPackage ++ "/install_timestamp"
  match Adb.Pull cfg env c tsPath with
  | (Except.error e, c1) => (Except.error e, c1, [Event.pull tsPath])
  | (Except.ok expected, c1) =>
    match expected with
    | none => (Except.error (Err.timestamp verifyAbsentMsg), c1, [Event.pull tsPath])
    | some t =>
      if t = "" then (Except.error (Err.timestamp verifyAbsentMsg), c1, [Event.pull tsPath])
      else
        match Adb.GetInstallTime cfg env appPackage with
        | Except.error e =>
          (Except.error e, c1,
            [Event.pull tsPath, Event.shell ("dumpsys package " ++ appPackage)])
        | Except.ok actual =>
          if actual ≠ t then
            (Except.error (Err.timestamp (verifyMismatchMsg appPackage)), c1,
              [Event.pull tsPath, Event.shell ("dumpsys package " ++ appPackage)])
          else
            (Except.ok (), c1,
              [Event.pull tsPath, Event.shell ("dumpsys package " ++ appPackage)])

/-- The incremental path of `IncrementalInstall` (lines 484–508 with
`split_main_apk = None` and `apk = None`): timestamp guard, dex reconciler
(`full_install = False`), resource reconciler, force-stop, optional start.
The local reads (stub data file, dex manifest) are the `appPackage` and
`dexmanifest` arguments; the adapter's file counter starts at 1
(`Adb.__init__`, line 104). -/
def IncrementalInstallIncremental (cfg : Config) (env : Env)
    (appPackage dexmanifest resourceApk : String) (startApp : Bool) :
    Except Err Unit × Nat × List Event :=
  let appDir := DEVICE_DIRECTORY ++ "/" ++ appPackage
  match VerifyInstallTimestamp cfg env 1 appPackage with
  | (Except.error e, c1, ev1) => (Except.error e, c1, ev1)
  | (Except.ok _, c1, ev1) =>
    match UploadDexes cfg env c1 appDir cfg.tempDir dexmanifest false with
    | (Except.error e, c2, ev2) => (Except.error e, c2, ev1 ++ ev2)
    | (Except.ok _, c2, ev2) =>
      match UploadResources cfg env c2 resourceApk appDir with
      | (Except.error e, c3, ev3) => (Except.error e, c3, ev1 ++ ev2 ++ ev3)
      | (Except.ok _, c3, ev3) =>
        match Adb.StopApp cfg env appPackage with
        | Except.error e =>
          (Except.error e, c3,
            ev1 ++ ev2 ++ ev3 ++ [Event.shell ("am force-stop " ++ appPackage)])
        | Except.ok _ =>
          if startApp then
            match Adb.StartApp cfg env appPackage with
            | res =>
              (res, c3,
                ev1 ++ ev2 ++ ev3 ++ [Event.shell ("am force-stop " ++ appPackage),
                  Event.shell ("monkey -p " ++ appPackage ++
                    " -c android.intent.category.LAUNCHER 1")])
          else
            (Except.ok (), c3,
              ev1 ++ ev2 ++ ev3 ++ [Event.shell ("am force-stop " ++ appPackage)])

/-- Does the event delete or overwrite a device-side dex file, i.e. target
anything other than the manifest anchor `mpath`?  (Used for claim C1, whose
scope is the dex directory.) -/
def mutatesDexFile (mpath : String) : Event → Bool
  | Event.push _ remote => remote != mpath
  | Event.pushString _ remote => remote != mpath
  | Event.rm fs => fs != [mpath]
  | _ => false

/-! ## Helper lemmas: dictionaries and the parser -/

theorem mlookup_dictInsert (m : Manifest) (k : String) (v : ManifestEntry) (k2 : String) :
    mlookup (dictInsert m k v) k2 = if k = k2 then some v else mlookup m k2 := by
  induction m with
  | nil => simp [dictInsert, mlookup]
  | cons p rest ih =>
    obtain ⟨k', v'⟩ := p
    by_cases h : k' = k
    · subst h
      by_cases h2 : k' = k2 <;> simp [dictInsert, mlookup, h2]
    · by_cases h2 : k' = k2
      · subst h2
        simp [dictInsert, mlookup, h, Ne.symm h]
      · simp [dictInsert, mlookup, h, h2, ih]

theorem mem_mkeys_iff (m : Manifest) (k : String) :
    k ∈ mkeys m ↔ (mlookup m k).isSome = true := by
  induction m with
  | nil => simp [mkeys, mlookup]
  | cons p rest ih =>
    obtain ⟨k', v'⟩ := p
    have hm : mkeys ((k', v') :: rest) = k' :: mkeys rest := rfl
    rw [hm, List.mem_cons]
    by_cases h : k' = k
    · subst h
      simp [mlookup]
    · simp [mlookup, h, Ne.symm h, ih]

theorem parseLines_isSome (ls : List String) :
    ∀ acc : Manifest,
      (∃ m, parseLines ls acc = some m) ↔ ∀ l ∈ ls, (parseManifestLine l).isSome = true := by
  induction ls with
  | nil => intro acc; simp [parseLines]
  | cons l rest ih =>
    intro acc
    cases h : parseManifestLine l with
    | none => simp [parseLines, h]
    | some e => simp [parseLines, h, ih]

theorem parseLines_lookup (ls : List String) :
    ∀ (acc m : Manifest), parseLines ls acc = some m → ∀ k,
      mlookup m k =
        match specLookup (ls.filterMap parseManifestLine) k with
        | some e => some e
        | none => mlookup acc k := by
  induction ls with
  | nil =>
    intro acc m hm k
    simp only [parseLines, Option.some.injEq] at hm
    subst hm
    simp [specLookup]
  | cons l rest ih =>
    intro acc m hm k
    cases h : parseManifestLine l with
    | none => simp [parseLines, h] at hm
    | some e =>
      simp only [parseLines, h] at hm
      have := ih (dictInsert acc e.installpath e) m hm k
      simp only [List.filterMap_cons, h, specLookup, this, mlookup_dictInsert]
      cases hs : specLookup (rest.filterMap parseManifestLine) k with
      | some x => simp
      | none =>
        by_cases he : e.installpath = k
        · simp [he]
        · simp [he]

/-! ## Claim C4: the manifest parser -/

/-- C4 (counterexample): the claim says the parser "skips an empty trailing
line" and that "parsing a well-formed manifest that ends with a trailing
newline succeeds".  The source has no such skip: the well-formed single-line
manifest below parses, but the same manifest with a trailing newline makes
`ManifestEntry(*("".strip().split(" ")))` raise a `TypeError`. -/
theorem parseManifest_trailing_newline_fails :
    (ParseManifest "input.zip classes.dex classes.dex 0abc").isSome = true ∧
    ParseManifest "input.zip classes.dex classes.dex 0abc\n" = none :=
  ⟨rfl, rfl⟩

/-- C4 (amended): `ParseManifest` splits the text on newline and requires
every resulting chunk — including an empty chunk produced by a trailing
newline — to consist of exactly four single-space-separated tokens after
stripping surrounding whitespace, in the order
`input_file zip_path install_path sha256`; it returns the map keyed by
`install_path`, last entry winning.  A well-formed manifest that ends with a
trailing newline therefore fails to parse (uncaught `TypeError`). -/
theorem parseManifest_characterization (contents : String) :
    ((∃ m, ParseManifest contents = some m) ↔
      ∀ l ∈ pySplit contents '\n', (parseManifestLine l).isSome = true)
    ∧ ∀ m k, ParseManifest contents = some m →
        mlookup m k = specLookup ((pySplit contents '\n').filterMap parseManifestLine) k := by
  constructor
  · exact parseLines_isSome (pySplit contents '\n') []
  · intro m k hm
    have h2 := parseLines_lookup (pySplit contents '\n') [] m hm k
    cases hs : specLookup ((pySplit contents '\n').filterMap parseManifestLine) k <;>
      simp [h2, hs, mlookup]

/-- Witness for `parseManifest_characterization` at a concrete manifest. -/
theorem parseManifest_characterization_witness :
    ParseManifest "a b c d" = some [("c", ⟨"a", "b", "c", "d"⟩)] ∧
    mlookup [("c", ⟨"a", "b", "c", "d"⟩)] "c" =
      specLookup ((pySplit "a b c d" '\n').filterMap parseManifestLine) "c" :=
  ⟨rfl, (parseManifest_characterization "a b c d").2 [("c", ⟨"a", "b", "c", "d"⟩)] "c" rfl⟩

/-! ## Claim C6: error classification of a bridge invocation -/

/-- C6: classification of the captured (stripped) stderr precedes the
generic exit-code check — "device not found" wins over everything (even a
zero exit), then "device unauthorized", then the multiple-devices pattern
(whose message drops a leading "error: "), then a non-zero exit raises
`AdbError` carrying argv, the exit code and both captured streams, and a
zero exit with none of these patterns succeeds.  The final conjunct records
that every bridge invocation (`_Exec`) applies exactly this classification
to its child's output. -/
theorem classify_precedence (args : List String) (o : ExecOut) :
    (pyContains (pyStrip o.stderr) "device not found" = true →
      classify args o = Except.error Err.deviceNotFound)
    ∧ (pyContains (pyStrip o.stderr) "device not found" = false →
       pyContains (pyStrip o.stderr) "device unauthorized" = true →
      classify args o = Except.error Err.deviceUnauthorized)
    ∧ (pyContains (pyStrip o.stderr) "device not found" = false →
       pyContains (pyStrip o.stderr) "device unauthorized" = false →
       MultipleDevicesCheck (pyStrip o.stderr) = true →
      classify args o = Except.error (Err.multipleDevices (dropErrorLabel (pyStrip o.stderr))))
    ∧ (pyContains (pyStrip o.stderr) "device not found" = false →
       pyContains (pyStrip o.stderr) "device unauthorized" = false →
       MultipleDevicesCheck (pyStrip o.stderr) = false →
       o.returncode ≠ 0 →
      classify args o = Except.error (Err.adbError args o.returncode (pyStrip o.stdout) (pyStrip o.stderr)))
    ∧ (pyContains (pyStrip o.stderr) "device not found" = false →
       pyContains (pyStrip o.stderr) "device unauthorized" = false →
       MultipleDevicesCheck (pyStrip o.stderr) = false →
       o.returncode = 0 →
      classify args o = Except.ok ⟨o.returncode, pyStrip o.stdout, pyStrip o.stderr, args⟩)
    ∧ ∀ (cfg : Config) (env : Env) (adbArgs : List String),
        execAdb cfg env adbArgs =
          classify (cfg.adbPath :: (cfg.extraAdbArgs ++ adbArgs))
            (env.run (cfg.adbPath :: (cfg.extraAdbArgs ++ adbArgs))) := by
  refine ⟨?_, ?_, ?_, ?_, ?_, fun _ _ _ => rfl⟩
  · intro h1
    simp [classify, h1]
  · intro h1 h2
    simp [classify, h1, h2]
  · intro h1 h2 h3
    simp [classify, h1, h2, h3]
  · intro h1 h2 h3 h4
    simp [classify, h1, h2, h3, h4]
  · intro h1 h2 h3 h4
    simp [classify, h1, h2, h3, h4]

/-- Witness for `classify_precedence`: a multiple-devices stderr is
classified (with its "error: " label stripped) even though the exit code is
also non-zero. -/
theorem classify_precedence_witness :
    classify ["adb"] ⟨1, "", "error: more than one device"⟩ =
      Except.error (Err.multipleDevices "more than one device") :=
  (classify_precedence ["adb"] ⟨1, "", "error: more than one device"⟩).2.2.1 rfl rfl rfl

/-! ## Claim C5: pull error swallowing -/

/-- C5 (counterexample): the claim says a pull failing for any bridge-level
reason — explicitly including device-not-found — returns the absent value
and raises no error.  `Pull` only catches `(AdbError, IOError)`
(line 199), so a pull whose stderr classifies as device-not-found raises. -/
theorem pull_device_not_found_propagates :
    (Adb.Pull ⟨"adb", [], "/tmp"⟩
        ⟨fun _ => ⟨1, "", "error: device not found"⟩, fun _ => none, fun _ => ""⟩
        1 "/data/x").1 = Except.error Err.deviceNotFound := rfl

/-- C5 (amended): a pull that fails with the generic `BridgeError`, or whose
local read-back fails (`IOError`), returns the absent value and raises no
error; a successful pull returns the file's contents; a device-not-found,
device-unauthorized or multiple-devices classification propagates out of
`Pull`. -/
theorem pull_swallows_bridge_errors (cfg : Config) (env : Env) (c : Nat) (remote : String) :
    (∀ a r so se,
        execAdb cfg env ["pull", remote, localFile cfg c] = Except.error (Err.adbError a r so se) →
        (Adb.Pull cfg env c remote).1 = Except.ok none)
    ∧ (execAdb cfg env ["pull", remote, localFile cfg c] = Except.error Err.deviceNotFound →
        (Adb.Pull cfg env c remote).1 = Except.error Err.deviceNotFound)
    ∧ (execAdb cfg env ["pull", remote, localFile cfg c] = Except.error Err.deviceUnauthorized →
        (Adb.Pull cfg env c remote).1 = Except.error Err.deviceUnauthorized)
    ∧ (∀ msg,
        execAdb cfg env ["pull", remote, localFile cfg c] = Except.error (Err.multipleDevices msg) →
        (Adb.Pull cfg env c remote).1 = Except.error (Err.multipleDevices msg))
    ∧ (∀ res, execAdb cfg env ["pull", remote, localFile cfg c] = Except.ok res →
        env.readLocal (localFile cfg c) = none →
        (Adb.Pull cfg env c remote).1 = Except.ok none)
    ∧ (∀ res s, execAdb cfg env ["pull", remote, localFile cfg c] = Except.ok res →
        env.readLocal (localFile cfg c) = some s →
        (Adb.Pull cfg env c remote).1 = Except.ok (some s)) := by
  refine ⟨?_, ?_, ?_, ?_, ?_, ?_⟩
  · intro a r so se h
    simp [Adb.Pull, h]
  · intro h
    simp [Adb.Pull, h]
  · intro h
    simp [Adb.Pull, h]
  · intro msg h
    simp [Adb.Pull, h]
  · intro res h hr
    simp [Adb.Pull, h, hr]
  · intro res s h hr
    simp [Adb.Pull, h, hr]

/-- Witness for `pull_swallows_bridge_errors`: a plain non-zero-exit pull is
swallowed into the absent value. -/
theorem pull_swallows_bridge_errors_witness :
    (Adb.Pull ⟨"adb", [], "/tmp"⟩ ⟨fun _ => ⟨1, "", "oops"⟩, fun _ => none, fun _ => ""⟩
        1 "r").1 = Except.ok none :=
  (pull_swallows_bridge_errors ⟨"adb", [], "/tmp"⟩
      ⟨fun _ => ⟨1, "", "oops"⟩, fun _ => none, fun _ => ""⟩ 1 "r").1
    ["adb", "pull", "r", "/tmp/adbfile_1"] 1 "" "oops" rfl

/-! ## Claim C7: the Success-token requirement of install -/

/-- C7: `install` and `install-multiple` fail with the generic `BridgeError`
exactly when the underlying bridge invocation itself fails with one, or when
the invocation succeeds but the literal token "Success" appears in neither
captured stream; in particular a bridge-level success (exit 0, no classified
stderr pattern) without "Success" in either stream fails with a
`BridgeError` carrying argv, the exit code and both streams.  (A bridge
failure classified as device-not-found, device-unauthorized or
multiple-devices propagates with that classification instead.) -/
theorem install_requires_success_token (cfg : Config) (env : Env) (apk : String)
    (pkg : Option String) :
    ((∃ a r so se, Adb.Install cfg env apk = Except.error (Err.adbError a r so se)) ↔
      ((∃ a r so se,
          execAdb cfg env ["install", "-r", apk] = Except.error (Err.adbError a r so se)) ∨
       (∃ res, execAdb cfg env ["install", "-r", apk] = Except.ok res ∧
          pyContains res.stderr "Success" = false ∧ pyContains res.stdout "Success" = false)))
    ∧ ((∃ a r so se,
          Adb.InstallMultiple cfg env apk pkg = Except.error (Err.adbError a r so se)) ↔
      ((∃ a r so se,
          execAdb cfg env (["install-multiple", "-r"] ++ pkgArgs pkg ++ [apk]) =
            Except.error (Err.adbError a r so se)) ∨
       (∃ res,
          execAdb cfg env (["install-multiple", "-r"] ++ pkgArgs pkg ++ [apk]) =
            Except.ok res ∧
          pyContains res.stderr "Success" = false ∧ pyContains res.stdout "Success" = false)))
    ∧ (∀ res, execAdb cfg env ["install", "-r", apk] = Except.ok res →
        pyContains res.stderr "Success" = false → pyContains res.stdout "Success" = false →
        Adb.Install cfg env apk =
          Except.error (Err.adbError res.args res.returncode res.stdout res.stderr)) := by
  refine ⟨?_, ?_, ?_⟩
  · cases h : execAdb cfg env ["install", "-r", apk] with
    | error e => simp [Adb.Install, h]
    | ok res =>
      by_cases h1 : pyContains res.stderr "Success" <;>
        by_cases h2 : pyContains res.stdout "Success" <;>
          simp [Adb.Install, h, h1, h2]
  · cases h : execAdb cfg env (["install-multiple", "-r"] ++ pkgArgs pkg ++ [apk]) with
    | error e =>
      simp only [List.cons_append, List.nil_append] at h
      simp [Adb.InstallMultiple, h]
    | ok res =>
      simp only [List.cons_append, List.nil_append] at h
      by_cases h1 : pyContains res.stderr "Success" <;>
        by_cases h2 : pyContains res.stdout "Success" <;>
          simp [Adb.InstallMultiple, h, h1, h2]
  · intro res h h1 h2
    simp [Adb.Install, h, h1, h2]

/-- Witness for `install_requires_success_token`: an install that exits 0
with empty streams (no "Success") fails with the generic bridge error. -/
theorem install_requires_success_token_witness :
    Adb.Install ⟨"adb", [], "/tmp"⟩ ⟨fun _ => ⟨0, "", ""⟩, fun _ => none, fun _ => ""⟩ "x.apk" =
      Except.error (Err.adbError ["adb", "install", "-r", "x.apk"] 0 "" "") :=
  (install_requires_success_token ⟨"adb", [], "/tmp"⟩
      ⟨fun _ => ⟨0, "", ""⟩, fun _ => none, fun _ => ""⟩ "x.apk" none).2.2
    ⟨0, "", "", ["adb", "install", "-r", "x.apk"]⟩ rfl rfl rfl

/-! ## Helper lemmas: joins, deletes, push batches -/

theorem data_append (a b : String) : (a ++ b).data = a.data ++ b.data := by
  cases a
  cases b
  rfl

theorem ne_empty_of_data_ne (s : String) (h : s.data ≠ []) : s ≠ "" := by
  intro he
  rw [he] at h
  exact h rfl

theorem append_suffix_ne_empty (x suf : String) (h : suf.data ≠ []) : x ++ suf ≠ "" := by
  apply ne_empty_of_data_ne
  rw [data_append]
  intro hc
  exact h (List.append_eq_nil.mp hc).2

theorem pyJoin_space_ne_empty (x : String) (xs : List String) (hx : x ≠ "") :
    pyJoin " " (x :: xs) ≠ "" := by
  cases xs with
  | nil => exact hx
  | cons y rest =>
    show x ++ " " ++ pyJoin " " (y :: rest) ≠ ""
    apply ne_empty_of_data_ne
    rw [data_append, data_append]
    intro hc
    have := (List.append_eq_nil.mp (List.append_eq_nil.mp hc).1).2
    simp at this

theorem deleteMultiple_events (cfg : Config) (env : Env) (fs : List String) :
    (Adb.DeleteMultiple cfg env fs).2 = [] ∨ (Adb.DeleteMultiple cfg env fs).2 = [Event.rm fs] := by
  by_cases h : pyJoin " " fs = ""
  · left
    simp [Adb.DeleteMultiple, h]
  · right
    cases hS : Adb.Shell cfg env ("rm -fr " ++ pyJoin " " fs) with
    | error e => simp [Adb.DeleteMultiple, h, hS]
    | ok r => simp [Adb.DeleteMultiple, h, hS]

theorem deleteMultiple_cons_events (cfg : Config) (env : Env) (x : String) (xs : List String)
    (hx : x ≠ "") :
    (Adb.DeleteMultiple cfg env (x :: xs)).2 = [Event.rm (x :: xs)] := by
  have hne := pyJoin_space_ne_empty x xs hx
  cases hS : Adb.Shell cfg env ("rm -fr " ++ pyJoin " " (x :: xs)) with
  | error e => simp [Adb.DeleteMultiple, hne, hS]
  | ok r => simp [Adb.DeleteMultiple, hne, hS]

theorem delete_events (cfg : Config) (env : Env) (s : String) (hs : s ≠ "") :
    (Adb.Delete cfg env s).2 = [Event.rm [s]] :=
  deleteMultiple_cons_events cfg env s [] hs

theorem manifest_path_ne_empty (dexDir : String) : dexDir ++ "/manifest" ≠ "" := by
  apply append_suffix_ne_empty
  simp

theorem wipe_path_ne_empty (dexDir : String) : dexDir ++ "/*" ≠ "" := by
  apply append_suffix_ne_empty
  simp

theorem slash_path_ne_empty (dexDir k : String) : dexDir ++ "/" ++ k ≠ "" := by
  apply ne_empty_of_data_ne
  rw [data_append, data_append]
  intro hc
  have := (List.append_eq_nil.mp (List.append_eq_nil.mp hc).1).2
  simp at this

theorem pushBatchOutcome_ok_iff (cfg : Config) (env : Env) (l : List (String × String)) :
    pushBatchOutcome cfg env l = Except.ok () ↔
      ∀ p ∈ l, pushResult cfg env p.1 p.2 = Except.ok () := by
  induction l with
  | nil => simp [pushBatchOutcome]
  | cons p rest ih =>
    cases h : pushResult cfg env p.1 p.2 with
    | error e => simp [pushBatchOutcome, h]
    | ok u =>
      cases u
      simp [pushBatchOutcome, h, ih]

theorem pushBatchEvents_mem (e : Event) (f : List (String × String)) :
    e ∈ pushBatchEvents f ↔ ∃ lp rp, (lp, rp) ∈ f ∧ e = Event.push lp rp := by
  simp only [pushBatchEvents, List.mem_map, Prod.exists]
  constructor
  · rintro ⟨a, b, hm, he⟩
    exact ⟨a, b, hm, he.symm⟩
  · rintro ⟨a, b, hm, he⟩
    exact ⟨a, b, hm, he.symm⟩

theorem exists_mem_enumFrom {α : Type} (x : α) :
    ∀ (l : List α) (n : Nat), x ∈ l → ∃ i, (i, x) ∈ l.enumFrom n := by
  intro l
  induction l with
  | nil => intro n h; simp at h
  | cons a rest ih =>
    intro n h
    rcases List.mem_cons.mp h with h1 | h2
    · subst h1
      exact ⟨n, List.mem_cons_self _ _⟩
    · obtain ⟨i, hi⟩ := ih (n + 1) h2
      exact ⟨i, List.mem_cons_of_mem _ hi⟩

theorem snd_mem_of_mem_enumFrom {α : Type} (x : α) :
    ∀ (l : List α) (n i : Nat), (i, x) ∈ l.enumFrom n → x ∈ l := by
  intro l
  induction l with
  | nil => intro n i h; simp [List.enumFrom] at h
  | cons a rest ih =>
    intro n i h
    rcases List.mem_cons.mp h with h1 | h2
    · rw [Prod.mk.injEq] at h1
      exact List.mem_cons.mpr (Or.inl h1.2)
    · exact List.mem_cons.mpr (Or.inr (ih (n + 1) i h2))

/-- Soundness of `filesToPush`: every submitted push targets
`dexDir ++ "/" ++ k` for some `k` among the uploads. -/
theorem filesToPush_sound (newM : Manifest) (uploads : List String) (tempDir dexDir : String) :
    ∀ p ∈ filesToPush newM uploads tempDir dexDir,
      ∃ k ∈ uploads, p.2 = dexDir ++ "/" ++ k := by
  intro p hp
  simp only [filesToPush, List.mem_append, List.mem_flatMap, List.mem_map,
    List.mem_filter] at hp
  rcases hp with ⟨iz, _, d, ⟨hd, _⟩, he⟩ | ⟨d, ⟨hd, _⟩, he⟩
  · exact ⟨d, hd, by rw [← he]⟩
  · exact ⟨d, hd, by rw [← he]⟩

/-- Completeness of `filesToPush`: every upload key is pushed to its
install path. -/
theorem filesToPush_complete (newM : Manifest) (uploads : List String) (tempDir dexDir : String) :
    ∀ k ∈ uploads, ∃ lp, (lp, dexDir ++ "/" ++ k) ∈ filesToPush newM uploads tempDir dexDir := by
  intro k hk
  by_cases hz : entryZippath newM k = "-"
  · refine ⟨entryInputFile newM k, ?_⟩
    simp only [filesToPush, List.mem_append]
    right
    simp only [List.mem_map, List.mem_filter]
    exact ⟨k, ⟨hk, by simp [hz]⟩, rfl⟩
  · have hmem : entryInputFile newM k ∈
        ((uploads.filter (fun d => entryZippath newM d != "-")).map
          (fun d => entryInputFile newM d)).dedup := by
      rw [List.mem_dedup, List.mem_map]
      exact ⟨k, List.mem_filter.mpr ⟨hk, by simp [hz]⟩, rfl⟩
    obtain ⟨i, hi⟩ := exists_mem_enumFrom (entryInputFile newM k) _ 0 hmem
    refine ⟨tempDir ++ "/dex/" ++ toString i ++ "/" ++ entryZippath newM k, ?_⟩
    simp only [filesToPush, List.mem_append]
    left
    simp only [List.enum, List.mem_flatMap]
    refine ⟨(i, entryInputFile newM k), hi, ?_⟩
    simp only [List.mem_map, List.mem_filter]
    exact ⟨k, ⟨hk, by simp⟩, rfl⟩

/-- Exhaustive case analysis of `uploadPhase`: either the diff is empty and
nothing is issued (fast path), or the anchor delete is issued first and the
run is one of: anchor delete failed; batch delete failed; some push failed
(trace ends with the submitted pushes, no manifest write); or every push
succeeded and the trace ends with the manifest `pushString`. -/
theorem uploadPhase_cases (cfg : Config) (env : Env) (c : Nat)
    (dexDir tempDir dm : String) (oldM newM : Manifest) (evs : List Event) :
    (dexesToDelete oldM newM = [] ∧ dexesToUpload oldM newM = [] ∧
      uploadPhase cfg env c dexDir tempDir dm oldM newM evs = (Except.ok (), c, evs)) ∨
    (¬(dexesToDelete oldM newM = [] ∧ dexesToUpload oldM newM = []) ∧
      ((∃ e, uploadPhase cfg env c dexDir tempDir dm oldM newM evs =
          (Except.error e, c, evs ++ (Adb.Delete cfg env (dexDir ++ "/manifest")).2)) ∨
       (∃ e, uploadPhase cfg env c dexDir tempDir dm oldM newM evs =
          (Except.error e, c,
            evs ++ (Adb.Delete cfg env (dexDir ++ "/manifest")).2 ++
              (Adb.DeleteMultiple cfg env
                ((dexesToDelete oldM newM).map (fun d => dexDir ++ "/" ++ d))).2)) ∨
       (∃ e, pushBatchOutcome cfg env
            (filesToPush newM (dexesToUpload oldM newM) tempDir dexDir) = Except.error e ∧
          uploadPhase cfg env c dexDir tempDir dm oldM newM evs =
            (Except.error e, c,
              evs ++ (Adb.Delete cfg env (dexDir ++ "/manifest")).2 ++
                (Adb.DeleteMultiple cfg env
                  ((dexesToDelete oldM newM).map (fun d => dexDir ++ "/" ++ d))).2 ++
                pushBatchEvents (filesToPush newM (dexesToUpload oldM newM) tempDir dexDir))) ∨
       (pushBatchOutcome cfg env
            (filesToPush newM (dexesToUpload oldM newM) tempDir dexDir) = Except.ok () ∧
          uploadPhase cfg env c dexDir tempDir dm oldM newM evs =
            (pushResult cfg env (localFile cfg c) (dexDir ++ "/manifest"), c + 1,
              evs ++ (Adb.Delete cfg env (dexDir ++ "/manifest")).2 ++
                (Adb.DeleteMultiple cfg env
                  ((dexesToDelete oldM newM).map (fun d => dexDir ++ "/" ++ d))).2 ++
                pushBatchEvents (filesToPush newM (dexesToUpload oldM newM) tempDir dexDir) ++
                [Event.pushString dm (dexDir ++ "/manifest")])))) := by
  by_cases hfast : dexesToDelete oldM newM = [] ∧ dexesToUpload oldM newM = []
  · left
    exact ⟨hfast.1, hfast.2, by simp [uploadPhase, hfast.1, hfast.2]⟩
  · right
    refine ⟨hfast, ?_⟩
    rcases hA : Adb.Delete cfg env (dexDir ++ "/manifest") with ⟨resA, aev⟩
    cases resA with
    | error e =>
      left
      exact ⟨e, by simp [uploadPhase, hfast, hA]⟩
    | ok u =>
      cases u
      rcases hD : Adb.DeleteMultiple cfg env
          ((dexesToDelete oldM newM).map (fun d => dexDir ++ "/" ++ d)) with ⟨resD, dev⟩
      cases resD with
      | error e =>
        right; left
        exact ⟨e, by simp [uploadPhase, hfast, hA, hD]⟩
      | ok u2 =>
        cases u2
        cases hP : pushBatchOutcome cfg env
            (filesToPush newM (dexesToUpload oldM newM) tempDir dexDir) with
        | error e =>
          right; right; left
          exact ⟨e, rfl, by simp [uploadPhase, hfast, hA, hD, hP]⟩
        | ok u3 =>
          cases u3
          right; right; right
          exact ⟨rfl, by simp [uploadPhase, hfast, hA, hD, hP, Adb.PushString]⟩

theorem pull_snd (cfg : Config) (env : Env) (c : Nat) (remote : String) :
    (Adb.Pull cfg env c remote).2 = c + 1 := by
  unfold Adb.Pull
  cases h : execAdb cfg env ["pull", remote, localFile cfg c] with
  | error e => cases e <;> simp [h]
  | ok r => cases hr : env.readLocal (localFile cfg c) <;> simp [h, hr]

theorem pull_eq_of_fst (cfg : Config) (env : Env) (c : Nat) (remote : String)
    (x : Except Err (Option String)) (h : (Adb.Pull cfg env c remote).1 = x) :
    Adb.Pull cfg env c remote = (x, c + 1) := by
  rw [← h, ← pull_snd cfg env c remote]

/-- Under a successful mkdir and a pulled, non-empty, parseable old
manifest, `UploadDexes` reduces to `uploadPhase` on the two parsed
manifests, with the mkdir and pull already in the trace. -/
theorem uploadDexes_pulled (cfg : Config) (env : Env) (c : Nat)
    (appDir tempDir dm s : String) (oldM newM : Manifest)
    (hmk : Adb.Mkdir cfg env (appDir ++ "/dex") = Except.ok ())
    (hpull : (Adb.Pull cfg env c (appDir ++ "/dex" ++ "/manifest")).1 = Except.ok (some s))
    (hs : s ≠ "") (hO : ParseManifest s = some oldM) (hN : ParseManifest dm = some newM) :
    UploadDexes cfg env c appDir tempDir dm false =
      uploadPhase cfg env (c + 1) (appDir ++ "/dex") tempDir dm oldM newM
        [Event.mkdir (appDir ++ "/dex"), Event.pull (appDir ++ "/dex" ++ "/manifest")] := by
  have hp := pull_eq_of_fst cfg env c (appDir ++ "/dex" ++ "/manifest") _ hpull
  simp [UploadDexes, hmk, hp, hs, hO, hN]

/-- Events that are neither a push nor a pushString. -/
def nonPushEvent : Event → Bool
  | Event.push _ _ => false
  | Event.pushString _ _ => false
  | _ => true

/-- A trace fragment containing no pushes of any kind. -/
def noPushEvents (l : List Event) : Prop := ∀ e ∈ l, nonPushEvent e = true

theorem noPushEvents_append (a b : List Event) :
    noPushEvents (a ++ b) ↔ noPushEvents a ∧ noPushEvents b := by
  simp [noPushEvents, List.mem_append, or_imp, forall_and]

theorem mem_deleteMultiple_events (cfg : Config) (env : Env) (fs : List String) (e : Event)
    (h : e ∈ (Adb.DeleteMultiple cfg env fs).2) : e = Event.rm fs := by
  rcases deleteMultiple_events cfg env fs with h2 | h2
  · rw [h2] at h
    simp at h
  · rw [h2] at h
    simpa using h

theorem mem_delete_events (cfg : Config) (env : Env) (s : String) (e : Event)
    (h : e ∈ (Adb.Delete cfg env s).2) : e = Event.rm [s] :=
  mem_deleteMultiple_events cfg env [s] e h

theorem noPushEvents_delete (cfg : Config) (env : Env) (s : String) :
    noPushEvents (Adb.Delete cfg env s).2 := by
  intro e he
  rw [mem_delete_events cfg env s e he]
  rfl

theorem noPushEvents_deleteMultiple (cfg : Config) (env : Env) (fs : List String) :
    noPushEvents (Adb.DeleteMultiple cfg env fs).2 := by
  intro e he
  rw [mem_deleteMultiple_events cfg env fs e he]
  rfl

/-- The trace of `uploadPhase` extends the caller's events. -/
theorem uploadPhase_trace_prefix (cfg : Config) (env : Env) (c : Nat)
    (dexDir tempDir dm : String) (oldM newM : Manifest) (evs : List Event) :
    ∃ t, (uploadPhase cfg env c dexDir tempDir dm oldM newM evs).2.2 = evs ++ t := by
  rcases uploadPhase_cases cfg env c dexDir tempDir dm oldM newM evs with
    ⟨_, _, h⟩ | ⟨_, ⟨e, h⟩ | ⟨e, h⟩ | ⟨e, _, h⟩ | ⟨_, h⟩⟩
  · exact ⟨[], by rw [h]; simp⟩
  · exact ⟨(Adb.Delete cfg env (dexDir ++ "/manifest")).2, by rw [h]⟩
  · exact ⟨(Adb.Delete cfg env (dexDir ++ "/manifest")).2 ++
      (Adb.DeleteMultiple cfg env
        ((dexesToDelete oldM newM).map (fun d => dexDir ++ "/" ++ d))).2,
      by rw [h]; simp [List.append_assoc]⟩
  · exact ⟨(Adb.Delete cfg env (dexDir ++ "/manifest")).2 ++
      (Adb.DeleteMultiple cfg env
        ((dexesToDelete oldM newM).map (fun d => dexDir ++ "/" ++ d))).2 ++
      pushBatchEvents (filesToPush newM (dexesToUpload oldM newM) tempDir dexDir),
      by rw [h]; simp [List.append_assoc]⟩
  · exact ⟨(Adb.Delete cfg env (dexDir ++ "/manifest")).2 ++
      (Adb.DeleteMultiple cfg env
        ((dexesToDelete oldM newM).map (fun d => dexDir ++ "/" ++ d))).2 ++
      pushBatchEvents (filesToPush newM (dexesToUpload oldM newM) tempDir dexDir) ++
      [Event.pushString dm (dexDir ++ "/manifest")],
      by rw [h]; simp [List.append_assoc]⟩

/-- Case analysis of `wipeThenPhase`: either it stops with a push-free
trace, or it reduces to `uploadPhase` with an empty old manifest and a
push-free event prefix that extends `evs`. -/
theorem wipeThenPhase_shape (cfg : Config) (env : Env) (c : Nat)
    (dexDir tempDir dm : String) (evs : List Event) (hevs : noPushEvents evs) :
    (noPushEvents (wipeThenPhase cfg env c dexDir tempDir dm evs).2.2 ∧
      ∃ t, (wipeThenPhase cfg env c dexDir tempDir dm evs).2.2 = evs ++ t) ∨
    (∃ newM wev, noPushEvents (evs ++ wev) ∧
      wipeThenPhase cfg env c dexDir tempDir dm evs =
        uploadPhase cfg env c dexDir tempDir dm [] newM (evs ++ wev)) := by
  rcases hW : Adb.Delete cfg env (dexDir ++ "/*") with ⟨resW, wev⟩
  have hwev : noPushEvents wev := by
    have := noPushEvents_delete cfg env (dexDir ++ "/*")
    rwa [hW] at this
  have hclean : noPushEvents (evs ++ wev) := (noPushEvents_append evs wev).mpr ⟨hevs, hwev⟩
  cases resW with
  | error e =>
    left
    have ht : (wipeThenPhase cfg env c dexDir tempDir dm evs).2.2 = evs ++ wev := by
      simp [wipeThenPhase, hW]
    rw [ht]
    exact ⟨hclean, wev, rfl⟩
  | ok u =>
    cases u
    cases hN : ParseManifest dm with
    | none =>
      left
      have ht : (wipeThenPhase cfg env c dexDir tempDir dm evs).2.2 = evs ++ wev := by
        simp [wipeThenPhase, hW, hN]
      rw [ht]
      exact ⟨hclean, wev, rfl⟩
    | some newM =>
      right
      exact ⟨newM, wev, hclean, by simp [wipeThenPhase, hW, hN]⟩

/-- Case analysis of a full `UploadDexes` run: either the whole trace is
push-free, or the run is an `uploadPhase` on a push-free prefix that starts
with the mkdir event.  In both cases the trace starts with the mkdir. -/
theorem uploadDexes_shape (cfg : Config) (env : Env) (c : Nat)
    (appDir tempDir dm : String) (fi : Bool) :
    (noPushEvents (UploadDexes cfg env c appDir tempDir dm fi).2.2 ∧
      ∃ tail, (UploadDexes cfg env c appDir tempDir dm fi).2.2 =
        Event.mkdir (appDir ++ "/dex") :: tail) ∨
    (∃ c2 oldM newM evsP pfx, noPushEvents evsP ∧
      evsP = Event.mkdir (appDir ++ "/dex") :: pfx ∧
      UploadDexes cfg env c appDir tempDir dm fi =
        uploadPhase cfg env c2 (appDir ++ "/dex") tempDir dm oldM newM evsP) := by
  cases hmk : Adb.Mkdir cfg env (appDir ++ "/dex") with
  | error e =>
    left
    have ht : (UploadDexes cfg env c appDir tempDir dm fi).2.2 =
        [Event.mkdir (appDir ++ "/dex")] := by
      simp [UploadDexes, hmk]
    rw [ht]
    exact ⟨by simp [noPushEvents, nonPushEvent], [], rfl⟩
  | ok u =>
    cases u
    cases fi with
    | true =>
      have heq : UploadDexes cfg env c appDir tempDir dm true =
          wipeThenPhase cfg env c (appDir ++ "/dex") tempDir dm
            [Event.mkdir (appDir ++ "/dex")] := by
        simp [UploadDexes, hmk]
      have hcl : noPushEvents [Event.mkdir (appDir ++ "/dex")] := by
        simp [noPushEvents, nonPushEvent]
      rcases wipeThenPhase_shape cfg env c (appDir ++ "/dex") tempDir dm
          [Event.mkdir (appDir ++ "/dex")] hcl with ⟨hnp, t, ht⟩ | ⟨newM, wev, hclean, hup⟩
      · left
        rw [heq]
        exact ⟨hnp, t, by rw [ht]; rfl⟩
      · right
        exact ⟨c, [], newM, _, _, hclean, rfl, heq.trans hup⟩
    | false =>
      rcases hPl : Adb.Pull cfg env c (appDir ++ "/dex" ++ "/manifest") with ⟨resP, c1⟩
      have hpfx : noPushEvents [Event.mkdir (appDir ++ "/dex"),
          Event.pull (appDir ++ "/dex" ++ "/manifest")] := by
        simp [noPushEvents, nonPushEvent]
      cases resP with
      | error e =>
        left
        have ht : (UploadDexes cfg env c appDir tempDir dm false).2.2 =
            [Event.mkdir (appDir ++ "/dex"), Event.pull (appDir ++ "/dex" ++ "/manifest")] := by
          simp [UploadDexes, hmk, hPl]
        rw [ht]
        exact ⟨hpfx, _, rfl⟩
      | ok oc =>
        have hwipe : ∀ hq : UploadDexes cfg env c appDir tempDir dm false =
            wipeThenPhase cfg env c1 (appDir ++ "/dex") tempDir dm
              [Event.mkdir (appDir ++ "/dex"),
               Event.pull (appDir ++ "/dex" ++ "/manifest")],
            (noPushEvents (UploadDexes cfg env c appDir tempDir dm false).2.2 ∧
              ∃ tail, (UploadDexes cfg env c appDir tempDir dm false).2.2 =
                Event.mkdir (appDir ++ "/dex") :: tail) ∨
            (∃ c2 oldM newM evsP pfx, noPushEvents evsP ∧
              evsP = Event.mkdir (appDir ++ "/dex") :: pfx ∧
              UploadDexes cfg env c appDir tempDir dm false =
                uploadPhase cfg env c2 (appDir ++ "/dex") tempDir dm oldM newM evsP) := by
          intro hq
          rcases wipeThenPhase_shape cfg env c1 (appDir ++ "/dex") tempDir dm
              [Event.mkdir (appDir ++ "/dex"),
               Event.pull (appDir ++ "/dex" ++ "/manifest")] hpfx with
            ⟨hnp, t, ht⟩ | ⟨newM, wev, hclean, hup⟩
          · left
            rw [hq]
            exact ⟨hnp, _, by rw [ht]; rfl⟩
          · right
            exact ⟨c1, [], newM, _, _, hclean, rfl, hq.trans hup⟩
        cases oc with
        | none => exact hwipe (by simp [UploadDexes, hmk, hPl])
        | some s =>
          by_cases hs : s = ""
          · subst hs
            exact hwipe (by simp [UploadDexes, hmk, hPl])
          · cases hO : ParseManifest s with
            | none =>
              left
              have ht : (UploadDexes cfg env c appDir tempDir dm false).2.2 =
                  [Event.mkdir (appDir ++ "/dex"),
                   Event.pull (appDir ++ "/dex" ++ "/manifest")] := by
                simp [UploadDexes, hmk, hPl, hs, hO]
              rw [ht]
              exact ⟨hpfx, _, rfl⟩
            | some oldM =>
              cases hN : ParseManifest dm with
              | none =>
                left
                have ht : (UploadDexes cfg env c appDir tempDir dm false).2.2 =
                    [Event.mkdir (appDir ++ "/dex"),
                     Event.pull (appDir ++ "/dex" ++ "/manifest")] := by
                  simp [UploadDexes, hmk, hPl, hs, hO, hN]
                rw [ht]
                exact ⟨hpfx, _, rfl⟩
              | some newM =>
                right
                exact ⟨c1, oldM, newM, _, _, hpfx, rfl,
                  by simp [UploadDexes, hmk, hPl, hs, hO, hN]⟩

/-- If a manifest `pushString` appears in an `uploadPhase` trace (over a
push-free prefix), then it is the manifest rewrite: its payload is the new
manifest bytes, every submitted dex push succeeded, and it is the last
event of the trace. -/
theorem uploadPhase_pushString_spec (cfg : Config) (env : Env) (c : Nat)
    (dexDir tempDir dm : String) (oldM newM : Manifest) (evs : List Event)
    (hevs : noPushEvents evs) (contents remote : String)
    (hmem : Event.pushString contents remote ∈
      (uploadPhase cfg env c dexDir tempDir dm oldM newM evs).2.2) :
    contents = dm ∧ remote = dexDir ++ "/manifest" ∧
    (∀ lp rp, Event.push lp rp ∈ (uploadPhase cfg env c dexDir tempDir dm oldM newM evs).2.2 →
      pushResult cfg env lp rp = Except.ok ()) ∧
    (uploadPhase cfg env c dexDir tempDir dm oldM newM evs).2.2.getLast? =
      some (Event.pushString dm (dexDir ++ "/manifest")) := by
  rcases uploadPhase_cases cfg env c dexDir tempDir dm oldM newM evs with
    ⟨_, _, h⟩ | ⟨_, ⟨e, h⟩ | ⟨e, h⟩ | ⟨e, hP, h⟩ | ⟨hP, h⟩⟩
  · rw [h] at hmem
    exact absurd (hevs _ hmem) (by simp [nonPushEvent])
  · rw [h] at hmem
    simp only [List.mem_append] at hmem
    rcases hmem with hm | hm
    · exact absurd (hevs _ hm) (by simp [nonPushEvent])
    · have := mem_delete_events _ _ _ _ hm
      simp at this
  · rw [h] at hmem
    simp only [List.mem_append] at hmem
    rcases hmem with (hm | hm) | hm
    · exact absurd (hevs _ hm) (by simp [nonPushEvent])
    · have := mem_delete_events _ _ _ _ hm
      simp at this
    · have := mem_deleteMultiple_events _ _ _ _ hm
      simp at this
  · rw [h] at hmem
    simp only [List.mem_append] at hmem
    rcases hmem with ((hm | hm) | hm) | hm
    · exact absurd (hevs _ hm) (by simp [nonPushEvent])
    · have := mem_delete_events _ _ _ _ hm
      simp at this
    · have := mem_deleteMultiple_events _ _ _ _ hm
      simp at this
    · rw [pushBatchEvents_mem] at hm
      obtain ⟨lp, rp, _, he⟩ := hm
      simp at he
  · have hmem2 := hmem
    rw [h] at hmem2
    simp only [List.mem_append] at hmem2
    have hkey : contents = dm ∧ remote = dexDir ++ "/manifest" := by
      rcases hmem2 with (((hm | hm) | hm) | hm) | hm
      · exact absurd (hevs _ hm) (by simp [nonPushEvent])
      · have := mem_delete_events _ _ _ _ hm
        simp at this
      · have := mem_deleteMultiple_events _ _ _ _ hm
        simp at this
      · rw [pushBatchEvents_mem] at hm
        obtain ⟨lp, rp, _, he⟩ := hm
        simp at he
      · simp only [List.mem_singleton, Event.pushString.injEq] at hm
        exact hm
    refine ⟨hkey.1, hkey.2, ?_, ?_⟩
    · intro lp rp hp
      rw [h] at hp
      simp only [List.mem_append] at hp
      rcases hp with (((hm | hm) | hm) | hm) | hm
      · exact absurd (hevs _ hm) (by simp [nonPushEvent])
      · have := mem_delete_events _ _ _ _ hm
        simp at this
      · have := mem_deleteMultiple_events _ _ _ _ hm
        simp at this
      · rw [pushBatchEvents_mem] at hm
        obtain ⟨lp2, rp2, hin, he⟩ := hm
        simp only [Event.push.injEq] at he
        rw [he.1, he.2]
        exact (pushBatchOutcome_ok_iff cfg env _).mp hP (lp2, rp2) hin
      · simp at hm
    · rw [h]
      exact List.getLast?_concat _

/-- In a trace that starts with a mkdir, a pull and the anchor delete, any
dex-mutating event is preceded by the anchor delete. -/
theorem anchor_first_of_form {d p2 mpath : String} {rest pre post : List Event} {e : Event}
    (hdec : Event.mkdir d :: Event.pull p2 :: Event.rm [mpath] :: rest = pre ++ e :: post)
    (hmut : mutatesDexFile mpath e = true) :
    Event.rm [mpath] ∈ pre := by
  cases pre with
  | nil =>
    rw [List.nil_append] at hdec
    injection hdec with h1 h2
    rw [← h1] at hmut
    simp [mutatesDexFile] at hmut
  | cons a pre1 =>
    rw [List.cons_append] at hdec
    injection hdec with h1 h2
    cases pre1 with
    | nil =>
      rw [List.nil_append] at h2
      injection h2 with h3 h4
      rw [← h3] at hmut
      simp [mutatesDexFile] at hmut
    | cons b pre2 =>
      rw [List.cons_append] at h2
      injection h2 with h3 h4
      cases pre2 with
      | nil =>
        rw [List.nil_append] at h4
        injection h4 with h5 h6
        rw [← h5] at hmut
        simp [mutatesDexFile] at hmut
      | cons cc pre3 =>
        rw [List.cons_append] at h4
        injection h4 with h5 h6
        rw [h5]
        simp

/-- C1: in a dex-reconciler run whose old manifest was pulled and parsed and
whose diff is non-empty, the device-side manifest anchor is deleted before
any dex file is deleted or overwritten (the only events before the anchor
delete are the mkdir and the pull); and — in every run, wiping or not — the
new-manifest push to the anchor path appears in the trace only if every
submitted dex push completed without error, and then as the very last
event.  Contrapositively, if any dex push fails the manifest push is never
issued.  (The dex pushes of a batch are all submitted before the failure
barrier, so they all appear in the trace; a canceled push still never
produces a manifest write.) -/
theorem uploadDexes_anchor_ordering (cfg : Config) (env : Env) (c : Nat)
    (appDir tempDir dm s : String) (oldM newM : Manifest) (fi : Bool)
    (hpull : (Adb.Pull cfg env c (appDir ++ "/dex" ++ "/manifest")).1 = Except.ok (some s))
    (hs : s ≠ "") (hO : ParseManifest s = some oldM) (hN : ParseManifest dm = some newM)
    (hdiff : ¬(dexesToDelete oldM newM = [] ∧ dexesToUpload oldM newM = [])) :
    (∀ pre e post,
      (UploadDexes cfg env c appDir tempDir dm false).2.2 = pre ++ e :: post →
      mutatesDexFile (appDir ++ "/dex" ++ "/manifest") e = true →
      Event.rm [appDir ++ "/dex" ++ "/manifest"] ∈ pre)
    ∧ (∀ contents remote,
        Event.pushString contents remote ∈ (UploadDexes cfg env c appDir tempDir dm fi).2.2 →
        (∀ lp rp, Event.push lp rp ∈ (UploadDexes cfg env c appDir tempDir dm fi).2.2 →
          pushResult cfg env lp rp = Except.ok ()) ∧
        (UploadDexes cfg env c appDir tempDir dm fi).2.2.getLast? =
          some (Event.pushString dm (appDir ++ "/dex" ++ "/manifest"))) := by
  constructor
  · cases hmk : Adb.Mkdir cfg env (appDir ++ "/dex") with
    | error e0 =>
      intro pre e2 post hdec hmut
      have ht : (UploadDexes cfg env c appDir tempDir dm false).2.2 =
          [Event.mkdir (appDir ++ "/dex")] := by
        simp [UploadDexes, hmk]
      rw [ht] at hdec
      cases pre with
      | nil =>
        rw [List.nil_append] at hdec
        injection hdec with h1 h2
        rw [← h1] at hmut
        simp [mutatesDexFile] at hmut
      | cons a pre1 =>
        rw [List.cons_append] at hdec
        injection hdec with h1 h2
        exact absurd h2.symm (by simp)
    | ok u =>
      cases u
      have hred := uploadDexes_pulled cfg env c appDir tempDir dm s oldM newM hmk hpull hs hO hN
      have hA2 : (Adb.Delete cfg env (appDir ++ "/dex" ++ "/manifest")).2 =
          [Event.rm [appDir ++ "/dex" ++ "/manifest"]] :=
        delete_events _ _ _ (manifest_path_ne_empty _)
      rcases uploadPhase_cases cfg env (c + 1) (appDir ++ "/dex") tempDir dm oldM newM
          [Event.mkdir (appDir ++ "/dex"), Event.pull (appDir ++ "/dex" ++ "/manifest")] with
        ⟨h1, h2, _⟩ | ⟨_, ⟨e, h⟩ | ⟨e, h⟩ | ⟨e, _, h⟩ | ⟨_, h⟩⟩
      · exact absurd ⟨h1, h2⟩ hdiff
      all_goals
        intro pre e2 post hdec hmut
        rw [hred, h] at hdec
        simp only [hA2, List.cons_append, List.nil_append, List.append_assoc] at hdec
        exact anchor_first_of_form hdec hmut
  · intro contents remote hmem
    rcases uploadDexes_shape cfg env c appDir tempDir dm fi with
      ⟨hnp, _⟩ | ⟨c2, oldM2, newM2, evsP, pfx, hclean, _, hup⟩
    · exact absurd (hnp _ hmem) (by simp [nonPushEvent])
    · rw [hup] at hmem ⊢
      have hspec := uploadPhase_pushString_spec cfg env c2 (appDir ++ "/dex") tempDir dm
        oldM2 newM2 evsP hclean contents remote hmem
      exact ⟨hspec.2.2.1, hspec.2.2.2⟩

/-- A configuration used by the concrete witnesses. -/
def cfgW : Config := ⟨"adb", [], "/tmp"⟩

/-- An environment in which every adb invocation exits 0 with empty streams
and the device-side manifest reads back as "f1 - a 111". -/
def envW : Env := ⟨fun _ => ⟨0, "", ""⟩, fun _ => some "f1 - a 111", fun _ => "d41d8cd9"⟩

/-- Witness for `uploadDexes_anchor_ordering`: in the concrete one-dex
update, the manifest push is the last event of the trace. -/
theorem uploadDexes_anchor_ordering_witness :
    (UploadDexes cfgW envW 1 "/app" "/tmp" "f2 - a 222" false).2.2.getLast? =
      some (Event.pushString "f2 - a 222" ("/app" ++ "/dex" ++ "/manifest")) :=
  ((uploadDexes_anchor_ordering cfgW envW 1 "/app" "/tmp" "f2 - a 222" "f1 - a 111"
      [("a", ⟨"f1", "-", "a", "111"⟩)] [("a", ⟨"f2", "-", "a", "222"⟩)] false
      rfl (by decide) rfl rfl (by decide)).2
    "f2 - a 222" ("/app" ++ "/dex" ++ "/manifest") (by decide)).2

theorem dexesToDelete_mem (oldM newM : Manifest) (k : String) :
    k ∈ dexesToDelete oldM newM ↔ k ∈ mkeys oldM ∧ ¬ k ∈ mkeys newM := by
  simp [dexesToDelete, List.mem_filter, mem_mkeys_iff, Option.isNone_iff_eq_none,
    Option.isSome_iff_ne_none]

theorem dexesToUpload_mem (oldM newM : Manifest) (k : String) :
    k ∈ dexesToUpload oldM newM ↔
      k ∈ mkeys newM ∧ (¬ k ∈ mkeys oldM ∨
        ∃ eo en, mlookup oldM k = some eo ∧ mlookup newM k = some en ∧
          en.sha256 ≠ eo.sha256) := by
  cases ho : mlookup oldM k with
  | none =>
    simp [dexesToUpload, List.mem_append, List.mem_filter, commonDexes,
      mem_mkeys_iff, ho, entrySha]
  | some eo =>
    cases hn2 : mlookup newM k with
    | none =>
      simp [dexesToUpload, List.mem_append, List.mem_filter, commonDexes,
        mem_mkeys_iff, ho, hn2, entrySha]
    | some en =>
      simp [dexesToUpload, List.mem_append, List.mem_filter, commonDexes,
        mem_mkeys_iff, ho, hn2, entrySha, bne_iff_ne]

/-- C2: for a run whose old manifest O was pulled and parsed and whose new
manifest N parses, the reconciler's sets are exactly
`to_delete = keys(O) \ keys(N)` and
`to_upload = {k in both : sha256 differs} ∪ (keys(N) \ keys(O))`; in a run
that returns without error, every path of `to_delete` is deleted and every
path of `to_upload` is pushed, and the only deleted paths are those of
`to_delete` (plus the manifest anchor, whose handling is claim C1) and the
only pushed install paths are those of `to_upload`. -/
theorem uploadDexes_diff_exact (cfg : Config) (env : Env) (c : Nat)
    (appDir tempDir dm s : String) (oldM newM : Manifest)
    (hpull : (Adb.Pull cfg env c (appDir ++ "/dex" ++ "/manifest")).1 = Except.ok (some s))
    (hs : s ≠ "") (hO : ParseManifest s = some oldM) (hN : ParseManifest dm = some newM)
    (hok : (UploadDexes cfg env c appDir tempDir dm false).1 = Except.ok ()) :
    (∀ k, k ∈ dexesToDelete oldM newM ↔ (k ∈ mkeys oldM ∧ ¬ k ∈ mkeys newM))
    ∧ (∀ k, k ∈ dexesToUpload oldM newM ↔
        (k ∈ mkeys newM ∧ (¬ k ∈ mkeys oldM ∨
          ∃ eo en, mlookup oldM k = some eo ∧ mlookup newM k = some en ∧
            en.sha256 ≠ eo.sha256)))
    ∧ (∀ k, k ∈ dexesToDelete oldM newM →
        ∃ fs, Event.rm fs ∈ (UploadDexes cfg env c appDir tempDir dm false).2.2 ∧
          (appDir ++ "/dex" ++ "/" ++ k) ∈ fs)
    ∧ (∀ fs, Event.rm fs ∈ (UploadDexes cfg env c appDir tempDir dm false).2.2 →
        ∀ f ∈ fs, f = appDir ++ "/dex" ++ "/manifest" ∨
          ∃ k ∈ dexesToDelete oldM newM, f = appDir ++ "/dex" ++ "/" ++ k)
    ∧ (∀ k, k ∈ dexesToUpload oldM newM →
        ∃ lp, Event.push lp (appDir ++ "/dex" ++ "/" ++ k) ∈
          (UploadDexes cfg env c appDir tempDir dm false).2.2)
    ∧ (∀ lp rp, Event.push lp rp ∈ (UploadDexes cfg env c appDir tempDir dm false).2.2 →
        ∃ k ∈ dexesToUpload oldM newM, rp = appDir ++ "/dex" ++ "/" ++ k) := by
  cases hmk : Adb.Mkdir cfg env (appDir ++ "/dex") with
  | error e0 =>
    have : (UploadDexes cfg env c appDir tempDir dm false).1 = Except.error e0 := by
      simp [UploadDexes, hmk]
    rw [hok] at this
    simp at this
  | ok u =>
    cases u
    have hred := uploadDexes_pulled cfg env c appDir tempDir dm s oldM newM hmk hpull hs hO hN
    have hA2 : (Adb.Delete cfg env (appDir ++ "/dex" ++ "/manifest")).2 =
        [Event.rm [appDir ++ "/dex" ++ "/manifest"]] :=
      delete_events _ _ _ (manifest_path_ne_empty _)
    refine ⟨dexesToDelete_mem oldM newM, dexesToUpload_mem oldM newM, ?_⟩
    rcases uploadPhase_cases cfg env (c + 1) (appDir ++ "/dex") tempDir dm oldM newM
        [Event.mkdir (appDir ++ "/dex"), Event.pull (appDir ++ "/dex" ++ "/manifest")] with
      ⟨h1, h2, heq⟩ | ⟨_, ⟨e, heq⟩ | ⟨e, heq⟩ | ⟨e, _, heq⟩ | ⟨hP, heq⟩⟩
    · -- fast path: empty diff, no rm and no push events
      have ht : (UploadDexes cfg env c appDir tempDir dm false).2.2 =
          [Event.mkdir (appDir ++ "/dex"), Event.pull (appDir ++ "/dex" ++ "/manifest")] := by
        rw [hred, heq]
      refine ⟨?_, ?_, ?_, ?_⟩
      · intro k hk
        rw [h1] at hk
        simp at hk
      · intro fs hfs
        rw [ht] at hfs
        simp at hfs
      · intro k hk
        rw [h2] at hk
        simp at hk
      · intro lp rp hp
        rw [ht] at hp
        simp at hp
    · have hcontra : (UploadDexes cfg env c appDir tempDir dm false).1 = Except.error e := by
        rw [hred, heq]
      rw [hok] at hcontra
      simp at hcontra
    · have hcontra : (UploadDexes cfg env c appDir tempDir dm false).1 = Except.error e := by
        rw [hred, heq]
      rw [hok] at hcontra
      simp at hcontra
    · have hcontra : (UploadDexes cfg env c appDir tempDir dm false).1 = Except.error e := by
        rw [hred, heq]
      rw [hok] at hcontra
      simp at hcontra
    · -- success: full trace present
      have ht : (UploadDexes cfg env c appDir tempDir dm false).2.2 =
          [Event.mkdir (appDir ++ "/dex"), Event.pull (appDir ++ "/dex" ++ "/manifest")] ++
            [Event.rm [appDir ++ "/dex" ++ "/manifest"]] ++
            (Adb.DeleteMultiple cfg env
              ((dexesToDelete oldM newM).map (fun d => appDir ++ "/dex" ++ "/" ++ d))).2 ++
            pushBatchEvents
              (filesToPush newM (dexesToUpload oldM newM) tempDir (appDir ++ "/dex")) ++
            [Event.pushString dm (appDir ++ "/dex" ++ "/manifest")] := by
        rw [hred, heq, hA2]
      refine ⟨?_, ?_, ?_, ?_⟩
      · -- every to_delete path is deleted
        intro k hk
        cases htd : dexesToDelete oldM newM with
        | nil =>
          rw [htd] at hk
          simp at hk
        | cons k0 rest =>
          have hB2 : (Adb.DeleteMultiple cfg env
              ((dexesToDelete oldM newM).map (fun d => appDir ++ "/dex" ++ "/" ++ d))).2 =
              [Event.rm ((dexesToDelete oldM newM).map
                (fun d => appDir ++ "/dex" ++ "/" ++ d))] := by
            rw [htd]
            exact deleteMultiple_cons_events cfg env _ _ (slash_path_ne_empty _ k0)
          refine ⟨(dexesToDelete oldM newM).map (fun d => appDir ++ "/dex" ++ "/" ++ d),
            ?_, List.mem_map_of_mem _ hk⟩
          rw [ht, hB2]
          simp
      · -- only to_delete paths (and the anchor) are deleted
        intro fs hfs f hf
        rw [ht] at hfs
        simp only [List.mem_append] at hfs
        rcases hfs with (((hm | hm) | hm) | hm) | hm
        · simp at hm
        · simp only [List.mem_singleton, Event.rm.injEq] at hm
          subst hm
          simp only [List.mem_singleton] at hf
          exact Or.inl hf
        · have h2 := mem_deleteMultiple_events _ _ _ _ hm
          simp only [Event.rm.injEq] at h2
          subst h2
          obtain ⟨k, hk, hfk⟩ := List.mem_map.mp hf
          exact Or.inr ⟨k, hk, hfk.symm⟩
        · rw [pushBatchEvents_mem] at hm
          obtain ⟨a, b, _, he⟩ := hm
          simp at he
        · simp at hm
      · -- every to_upload path is pushed
        intro k hk
        obtain ⟨lp, hlp⟩ := filesToPush_complete newM (dexesToUpload oldM newM) tempDir
          (appDir ++ "/dex") k hk
        refine ⟨lp, ?_⟩
        rw [ht]
        simp only [List.mem_append]
        left; right
        rw [pushBatchEvents_mem]
        exact ⟨lp, appDir ++ "/dex" ++ "/" ++ k, hlp, rfl⟩
      · -- only to_upload paths are pushed
        intro lp rp hp
        rw [ht] at hp
        simp only [List.mem_append] at hp
        rcases hp with (((hm | hm) | hm) | hm) | hm
        · simp at hm
        · simp at hm
        · have h2 := mem_deleteMultiple_events _ _ _ _ hm
          simp at h2
        · rw [pushBatchEvents_mem] at hm
          obtain ⟨a, b, hin, he⟩ := hm
          simp only [Event.push.injEq] at he
          obtain ⟨k, hk, hrp⟩ := filesToPush_sound newM (dexesToUpload oldM newM) tempDir
            (appDir ++ "/dex") (a, b) hin
          exact ⟨k, hk, by rw [he.2]; exact hrp⟩
        · simp at hm

/-- Witness for `uploadDexes_diff_exact`: in the concrete one-dex update the
changed dex "a" is in the upload set and is pushed. -/
theorem uploadDexes_diff_exact_witness :
    ∃ lp, Event.push lp ("/app" ++ "/dex" ++ "/" ++ "a") ∈
      (UploadDexes cfgW envW 1 "/app" "/tmp" "f2 - a 222" false).2.2 :=
  (uploadDexes_diff_exact cfgW envW 1 "/app" "/tmp" "f2 - a 222" "f1 - a 111"
      [("a", ⟨"f1", "-", "a", "111"⟩)] [("a", ⟨"f2", "-", "a", "222"⟩)]
      rfl (by decide) rfl rfl rfl).2.2.2.2.1 "a" (by decide)

theorem dexesToDelete_nil_of (oldM newM : Manifest)
    (hkeys : ∀ k, (mlookup oldM k).isSome = (mlookup newM k).isSome) :
    dexesToDelete oldM newM = [] := by
  unfold dexesToDelete
  rw [List.filter_eq_nil_iff]
  intro k hk
  have h1 := (mem_mkeys_iff oldM k).mp hk
  rw [hkeys k] at h1
  simp [Option.isNone_iff_eq_none]
  exact Option.isSome_iff_ne_none.mp h1

theorem dexesToUpload_nil_of (oldM newM : Manifest)
    (hkeys : ∀ k, (mlookup oldM k).isSome = (mlookup newM k).isSome)
    (hsha : ∀ k eo en, mlookup oldM k = some eo → mlookup newM k = some en →
      eo.sha256 = en.sha256) :
    dexesToUpload oldM newM = [] := by
  unfold dexesToUpload
  rw [List.append_eq_nil]
  constructor
  · rw [List.filter_eq_nil_iff]
    intro d hd
    obtain ⟨hdN, hdO⟩ := List.mem_filter.mp hd
    obtain ⟨eo, heo⟩ := Option.isSome_iff_exists.mp hdO
    obtain ⟨en, hen⟩ := Option.isSome_iff_exists.mp ((mem_mkeys_iff newM d).mp hdN)
    have := hsha d eo en heo hen
    simp [entrySha, heo, hen, this]
  · rw [List.filter_eq_nil_iff]
    intro k hk
    have h1 := (mem_mkeys_iff newM k).mp hk
    rw [← hkeys k] at h1
    simp [Option.isNone_iff_eq_none]
    exact Option.isSome_iff_ne_none.mp h1

/-- C3: when the pulled old manifest and the new manifest have the same
keys with equal sha256 for every key, the diff is empty and `UploadDexes`
returns successfully having issued only the mkdir and the pull — no
manifest-anchor delete, no manifest rewrite, no dex delete and no push.  In
particular a second run whose pull returns exactly the bytes written by a
previous successful run (`s = dm`) performs zero pushes. -/
theorem uploadDexes_fast_path (cfg : Config) (env : Env) (c : Nat)
    (appDir tempDir dm s : String) (oldM newM : Manifest)
    (hmk : Adb.Mkdir cfg env (appDir ++ "/dex") = Except.ok ())
    (hpull : (Adb.Pull cfg env c (appDir ++ "/dex" ++ "/manifest")).1 = Except.ok (some s))
    (hs : s ≠ "") (hO : ParseManifest s = some oldM) (hN : ParseManifest dm = some newM)
    (hkeys : ∀ k, (mlookup oldM k).isSome = (mlookup newM k).isSome)
    (hsha : ∀ k eo en, mlookup oldM k = some eo → mlookup newM k = some en →
      eo.sha256 = en.sha256) :
    UploadDexes cfg env c appDir tempDir dm false =
      (Except.ok (), c + 1,
        [Event.mkdir (appDir ++ "/dex"), Event.pull (appDir ++ "/dex" ++ "/manifest")]) := by
  have h1 := dexesToDelete_nil_of oldM newM hkeys
  have h2 := dexesToUpload_nil_of oldM newM hkeys hsha
  rw [uploadDexes_pulled cfg env c appDir tempDir dm s oldM newM hmk hpull hs hO hN]
  simp [uploadPhase, h1, h2]

/-- Witness for `uploadDexes_fast_path`: running against a device whose
manifest equals the input performs only the mkdir and the pull. -/
theorem uploadDexes_fast_path_witness :
    UploadDexes cfgW envW 1 "/app" "/tmp" "f1 - a 111" false =
      (Except.ok (), 2,
        [Event.mkdir ("/app" ++ "/dex"), Event.pull ("/app" ++ "/dex" ++ "/manifest")]) :=
  uploadDexes_fast_path cfgW envW 1 "/app" "/tmp" "f1 - a 111" "f1 - a 111"
    [("a", ⟨"f1", "-", "a", "111"⟩)] [("a", ⟨"f1", "-", "a", "111"⟩)]
    rfl rfl (by decide) rfl rfl (fun _ => rfl)
    (fun k eo en h1 h2 => by rw [h1] at h2; cases h2; rfl)

/-- C10: `DeleteMultiple` applied to an empty collection issues no bridge
invocation at all (it returns successfully with an empty trace without
consulting the environment); consequently, in a pulled run whose
`to_delete` is empty, the only `rm` the dex reconciler can issue is the
single manifest-anchor delete. -/
theorem deleteMultiple_empty_noop (cfg : Config) (env : Env) (c : Nat)
    (appDir tempDir dm s : String) (oldM newM : Manifest)
    (hpull : (Adb.Pull cfg env c (appDir ++ "/dex" ++ "/manifest")).1 = Except.ok (some s))
    (hs : s ≠ "") (hO : ParseManifest s = some oldM) (hN : ParseManifest dm = some newM)
    (hdel : dexesToDelete oldM newM = []) :
    (∀ (cfg2 : Config) (env2 : Env), Adb.DeleteMultiple cfg2 env2 [] = (Except.ok (), []))
    ∧ (∀ fs, Event.rm fs ∈ (UploadDexes cfg env c appDir tempDir dm false).2.2 →
        fs = [appDir ++ "/dex" ++ "/manifest"]) := by
  refine ⟨fun _ _ => rfl, ?_⟩
  cases hmk : Adb.Mkdir cfg env (appDir ++ "/dex") with
  | error e0 =>
    intro fs hfs
    have ht : (UploadDexes cfg env c appDir tempDir dm false).2.2 =
        [Event.mkdir (appDir ++ "/dex")] := by
      simp [UploadDexes, hmk]
    rw [ht] at hfs
    simp at hfs
  | ok u =>
    cases u
    have hred := uploadDexes_pulled cfg env c appDir tempDir dm s oldM newM hmk hpull hs hO hN
    have hA2 : (Adb.Delete cfg env (appDir ++ "/dex" ++ "/manifest")).2 =
        [Event.rm [appDir ++ "/dex" ++ "/manifest"]] :=
      delete_events _ _ _ (manifest_path_ne_empty _)
    have hB : (Adb.DeleteMultiple cfg env
        ((dexesToDelete oldM newM).map (fun d => appDir ++ "/dex" ++ "/" ++ d))).2 = [] := by
      rw [hdel]
      rfl
    intro fs hfs
    rw [hred] at hfs
    rcases uploadPhase_cases cfg env (c + 1) (appDir ++ "/dex") tempDir dm oldM newM
        [Event.mkdir (appDir ++ "/dex"), Event.pull (appDir ++ "/dex" ++ "/manifest")] with
      ⟨h1, h2, heq⟩ | ⟨_, ⟨e, heq⟩ | ⟨e, heq⟩ | ⟨e, _, heq⟩ | ⟨_, heq⟩⟩ <;>
      rw [heq] at hfs <;>
      simp only [hA2, hB, List.mem_append, List.append_nil] at hfs
    · simp at hfs
    · rcases hfs with hm | hm
      · simp at hm
      · simpa using hm
    · rcases hfs with hm | hm
      · simp at hm
      · simpa using hm
    · rcases hfs with (hm | hm) | hm
      · simp at hm
      · simpa using hm
      · rw [pushBatchEvents_mem] at hm
        obtain ⟨a, b, _, he⟩ := hm
        simp at he
    · rcases hfs with ((hm | hm) | hm) | hm
      · simp at hm
      · simpa using hm
      · rw [pushBatchEvents_mem] at hm
        obtain ⟨a, b, _, he⟩ := hm
        simp at he
      · simp at hm

/-- Witness for `deleteMultiple_empty_noop`: in the concrete one-dex update
(no deletions) the only `rm` in the trace is the anchor delete. -/
theorem deleteMultiple_empty_noop_witness :
    Adb.DeleteMultiple cfgW envW [] = (Except.ok (), []) ∧
    (["/app" ++ "/dex" ++ "/manifest"] : List String) =
      ["/app" ++ "/dex" ++ "/manifest"] :=
  ⟨(deleteMultiple_empty_noop cfgW envW 1 "/app" "/tmp" "f2 - a 222" "f1 - a 111"
      [("a", ⟨"f1", "-", "a", "111"⟩)] [("a", ⟨"f2", "-", "a", "222"⟩)]
      rfl (by decide) rfl rfl rfl).1 cfgW envW,
   (deleteMultiple_empty_noop cfgW envW 1 "/app" "/tmp" "f2 - a 222" "f1 - a 111"
      [("a", ⟨"f1", "-", "a", "111"⟩)] [("a", ⟨"f2", "-", "a", "222"⟩)]
      rfl (by decide) rfl rfl rfl).2 ["/app" ++ "/dex" ++ "/manifest"] (by decide)⟩

theorem resources_checksum_ne_empty (appDir : String) : appDir ++ "/resources_checksum" ≠ "" := by
  apply append_suffix_ne_empty
  simp

/-- C9: the resource reconciler compares the device checksum against the
SHA-256 digest of the local archive (`env.checksum`, the `hashlib` call of
`Checksum`): on a match it returns having issued nothing beyond the pull;
otherwise it deletes the device checksum anchor first, then pushes the
archive, and the digest `pushString` to the checksum file appears in the
trace only if the archive push completed without error — and then strictly
after it, as the last of the four events. -/
theorem uploadResources_checksum_gate (cfg : Config) (env : Env) (c : Nat)
    (resourceApk appDir : String) :
    ((Adb.Pull cfg env c (appDir ++ "/resources_checksum")).1 =
        Except.ok (some (env.checksum resourceApk)) →
      UploadResources cfg env c resourceApk appDir =
        (Except.ok (), c + 1, [Event.pull (appDir ++ "/resources_checksum")]))
    ∧ (∀ v, (Adb.Pull cfg env c (appDir ++ "/resources_checksum")).1 = Except.ok v →
        v ≠ some (env.checksum resourceApk) →
        ∃ rest, (UploadResources cfg env c resourceApk appDir).2.2 =
          Event.pull (appDir ++ "/resources_checksum") ::
            Event.rm [appDir ++ "/resources_checksum"] :: rest)
    ∧ (Event.pushString (env.checksum resourceApk) (appDir ++ "/resources_checksum") ∈
        (UploadResources cfg env c resourceApk appDir).2.2 →
        pushResult cfg env resourceApk (appDir ++ "/resources.ap_") = Except.ok () ∧
        (UploadResources cfg env c resourceApk appDir).2.2 =
          [Event.pull (appDir ++ "/resources_checksum"),
           Event.rm [appDir ++ "/resources_checksum"],
           Event.push resourceApk (appDir ++ "/resources.ap_"),
           Event.pushString (env.checksum resourceApk) (appDir ++ "/resources_checksum")]) := by
  have hdel2 : (Adb.Delete cfg env (appDir ++ "/resources_checksum")).2 =
      [Event.rm [appDir ++ "/resources_checksum"]] :=
    delete_events _ _ _ (resources_checksum_ne_empty appDir)
  refine ⟨?_, ?_, ?_⟩
  · intro hp
    have hp2 := pull_eq_of_fst cfg env c _ _ hp
    simp [UploadResources, hp2]
  · intro v hp hne
    have hp2 := pull_eq_of_fst cfg env c _ _ hp
    rcases hD : Adb.Delete cfg env (appDir ++ "/resources_checksum") with ⟨resD, dev⟩
    have hdev : dev = [Event.rm [appDir ++ "/resources_checksum"]] := by
      rw [← hdel2, hD]
    cases resD with
    | error e =>
      refine ⟨[], ?_⟩
      have ht : (UploadResources cfg env c resourceApk appDir).2.2 =
          Event.pull (appDir ++ "/resources_checksum") :: dev := by
        simp [UploadResources, hp2, hne, hD]
      rw [ht, hdev]
    | ok u =>
      cases u
      cases hPu : pushResult cfg env resourceApk (appDir ++ "/resources.ap_") with
      | error e =>
        refine ⟨[Event.push resourceApk (appDir ++ "/resources.ap_")], ?_⟩
        have ht : (UploadResources cfg env c resourceApk appDir).2.2 =
            Event.pull (appDir ++ "/resources_checksum") ::
              (dev ++ [Event.push resourceApk (appDir ++ "/resources.ap_")]) := by
          simp [UploadResources, hp2, hne, hD, hPu]
        rw [ht, hdev]
        rfl
      | ok u2 =>
        cases u2
        refine ⟨[Event.push resourceApk (appDir ++ "/resources.ap_"),
          Event.pushString (env.checksum resourceApk) (appDir ++ "/resources_checksum")], ?_⟩
        have ht : (UploadResources cfg env c resourceApk appDir).2.2 =
            Event.pull (appDir ++ "/resources_checksum") ::
              (dev ++ [Event.push resourceApk (appDir ++ "/resources.ap_"),
                Event.pushString (env.checksum resourceApk)
                  (appDir ++ "/resources_checksum")]) := by
          simp [UploadResources, hp2, hne, hD, hPu]
        rw [ht, hdev]
        rfl
  · intro hmem
    rcases hPl : Adb.Pull cfg env c (appDir ++ "/resources_checksum") with ⟨resP, c1⟩
    cases resP with
    | error e =>
      have ht : (UploadResources cfg env c resourceApk appDir).2.2 =
          [Event.pull (appDir ++ "/resources_checksum")] := by
        simp [UploadResources, hPl]
      rw [ht] at hmem
      simp at hmem
    | ok v =>
      by_cases hveq : v = some (env.checksum resourceApk)
      · subst hveq
        have ht : (UploadResources cfg env c resourceApk appDir).2.2 =
            [Event.pull (appDir ++ "/resources_checksum")] := by
          simp [UploadResources, hPl]
        rw [ht] at hmem
        simp at hmem
      · rcases hD : Adb.Delete cfg env (appDir ++ "/resources_checksum") with ⟨resD, dev⟩
        have hdev : dev = [Event.rm [appDir ++ "/resources_checksum"]] := by
          rw [← hdel2, hD]
        cases resD with
        | error e =>
          have ht : (UploadResources cfg env c resourceApk appDir).2.2 =
              Event.pull (appDir ++ "/resources_checksum") :: dev := by
            simp [UploadResources, hPl, hveq, hD]
          rw [ht, hdev] at hmem
          simp at hmem
        | ok u =>
          cases u
          cases hPu : pushResult cfg env resourceApk (appDir ++ "/resources.ap_") with
          | error e =>
            have ht : (UploadResources cfg env c resourceApk appDir).2.2 =
                Event.pull (appDir ++ "/resources_checksum") ::
                  (dev ++ [Event.push resourceApk (appDir ++ "/resources.ap_")]) := by
              simp [UploadResources, hPl, hveq, hD, hPu]
            rw [ht, hdev] at hmem
            simp at hmem
          | ok u2 =>
            cases u2
            refine ⟨rfl, ?_⟩
            have ht : (UploadResources cfg env c resourceApk appDir).2.2 =
                Event.pull (appDir ++ "/resources_checksum") ::
                  (dev ++ [Event.push resourceApk (appDir ++ "/resources.ap_"),
                    Event.pushString (env.checksum resourceApk)
                      (appDir ++ "/resources_checksum")]) := by
              simp [UploadResources, hPl, hveq, hD, hPu]
            rw [ht, hdev]
            rfl

/-- Witness for `uploadResources_checksum_gate`: in the concrete mismatch
run the digest write is present, so the archive push succeeded and the
trace is exactly pull, anchor delete, archive push, digest write. -/
theorem uploadResources_checksum_gate_witness :
    pushResult cfgW envW "res.ap_" ("/app" ++ "/resources.ap_") = Except.ok () ∧
    (UploadResources cfgW envW 1 "res.ap_" "/app").2.2 =
      [Event.pull ("/app" ++ "/resources_checksum"),
       Event.rm ["/app" ++ "/resources_checksum"],
       Event.push "res.ap_" ("/app" ++ "/resources.ap_"),
       Event.pushString (envW.checksum "res.ap_") ("/app" ++ "/resources_checksum")] :=
  (uploadResources_checksum_gate cfgW envW 1 "res.ap_" "/app").2.2 (by decide)

/-- Every dex-reconciler trace starts with the mkdir of the dex directory. -/
theorem uploadDexes_head (cfg : Config) (env : Env) (c : Nat)
    (appDir tempDir dm : String) (fi : Bool) :
    ∃ tail, (UploadDexes cfg env c appDir tempDir dm fi).2.2 =
      Event.mkdir (appDir ++ "/dex") :: tail := by
  rcases uploadDexes_shape cfg env c appDir tempDir dm fi with
    ⟨_, tail, ht⟩ | ⟨c2, oldM, newM, evsP, pfx, _, hpfx, hup⟩
  · exact ⟨tail, ht⟩
  · obtain ⟨t, ht⟩ := uploadPhase_trace_prefix cfg env c2 (appDir ++ "/dex") tempDir dm
      oldM newM evsP
    refine ⟨pfx ++ t, ?_⟩
    rw [hup, ht, hpfx]
    simp

/-- After a successful timestamp guard, the incremental run's trace is the
guard's events followed by the dex reconciler's trace (and whatever comes
after it). -/
theorem incremental_trace_prefix (cfg : Config) (env : Env)
    (appPackage dm resourceApk : String) (startApp : Bool) (c1 : Nat) (ev1 : List Event)
    (hver : VerifyInstallTimestamp cfg env 1 appPackage = (Except.ok (), c1, ev1)) :
    ∃ rest, (IncrementalInstallIncremental cfg env appPackage dm resourceApk startApp).2.2 =
      ev1 ++ (UploadDexes cfg env c1 (DEVICE_DIRECTORY ++ "/" ++ appPackage)
        cfg.tempDir dm false).2.2 ++ rest := by
  rcases hUD : UploadDexes cfg env c1 (DEVICE_DIRECTORY ++ "/" ++ appPackage)
      cfg.tempDir dm false with ⟨resU, cU, evU⟩
  cases resU with
  | error e =>
    exact ⟨[], by simp [IncrementalInstallIncremental, hver, hUD]⟩
  | ok u =>
    cases u
    rcases hUR : UploadResources cfg env cU resourceApk
        (DEVICE_DIRECTORY ++ "/" ++ appPackage) with ⟨resR, cR, evR⟩
    cases resR with
    | error e =>
      exact ⟨evR, by simp [IncrementalInstallIncremental, hver, hUD, hUR]⟩
    | ok u2 =>
      cases u2
      cases hSt : Adb.StopApp cfg env appPackage with
      | error e =>
        exact ⟨evR ++ [Event.shell ("am force-stop " ++ appPackage)],
          by simp [IncrementalInstallIncremental, hver, hUD, hUR, hSt]⟩
      | ok u3 =>
        cases u3
        cases startApp with
        | false =>
          exact ⟨evR ++ [Event.shell ("am force-stop " ++ appPackage)],
            by simp [IncrementalInstallIncremental, hver, hUD, hUR, hSt]⟩
        | true =>
          exact ⟨evR ++ [Event.shell ("am force-stop " ++ appPackage),
              Event.shell ("monkey -p " ++ appPackage ++
                " -c android.intent.category.LAUNCHER 1")],
            by simp [IncrementalInstallIncremental, hver, hUD, hUR, hSt]⟩

/-- C8 (counterexample): the claim says that when the anchor's value equals
the package manager's lastUpdateTime the run proceeds to the reconcilers.
In this environment the anchor is present with value "" and `dumpsys`
reports `lastUpdateTime=` (also ""), yet the run fails with a
`TimestampError`: the guard's `if not expected_timestamp` treats a present
empty anchor as absent. -/
theorem timestamp_empty_anchor_fails :
    (Adb.Pull cfgW
        ⟨fun _ => ⟨0, "lastUpdateTime=", ""⟩, fun _ => some "", fun _ => "d"⟩ 1
        (DEVICE_DIRECTORY ++ "/" ++ "pkg" ++ "/install_timestamp")).1 =
      Except.ok (some "") ∧
    Adb.GetInstallTime cfgW
        ⟨fun _ => ⟨0, "lastUpdateTime=", ""⟩, fun _ => some "", fun _ => "d"⟩ "pkg" =
      Except.ok "" ∧
    (IncrementalInstallIncremental cfgW
        ⟨fun _ => ⟨0, "lastUpdateTime=", ""⟩, fun _ => some "", fun _ => "d"⟩
        "pkg" "f1 - a 111" "res.ap_" false).1 =
      Except.error (Err.timestamp verifyAbsentMsg) :=
  ⟨rfl, rfl, rfl⟩

/-- C8 (amended): on the incremental path the timestamp guard runs before
any device mutation.  If the device-side `install_timestamp` anchor is
absent — or present but empty, which the guard's falsy test conflates with
absence — the run fails with a `TimestampError`; if the anchor is non-empty
but differs from the package manager's `lastUpdateTime`, the run fails with
a `TimestampError`; in both failure cases the trace holds only the pull
(and possibly the `dumpsys` read), so no device-side file has been
created, deleted or modified.  On a match with a non-empty anchor the run
proceeds to the reconcilers: the guard's two events are followed by the dex
reconciler's mkdir. -/
theorem incremental_timestamp_guard (cfg : Config) (env : Env)
    (appPackage dm resourceApk : String) (startApp : Bool) :
    (((Adb.Pull cfg env 1
          (DEVICE_DIRECTORY ++ "/" ++ appPackage ++ "/install_timestamp")).1 =
            Except.ok none ∨
      (Adb.Pull cfg env 1
          (DEVICE_DIRECTORY ++ "/" ++ appPackage ++ "/install_timestamp")).1 =
            Except.ok (some "")) →
      IncrementalInstallIncremental cfg env appPackage dm resourceApk startApp =
        (Except.error (Err.timestamp verifyAbsentMsg), 2,
          [Event.pull (DEVICE_DIRECTORY ++ "/" ++ appPackage ++ "/install_timestamp")]) ∧
      ∀ e ∈ (IncrementalInstallIncremental cfg env appPackage dm resourceApk startApp).2.2,
        e.mutatesFile = false)
    ∧ (∀ t u,
        (Adb.Pull cfg env 1
          (DEVICE_DIRECTORY ++ "/" ++ appPackage ++ "/install_timestamp")).1 =
            Except.ok (some t) →
        t ≠ "" →
        Adb.GetInstallTime cfg env appPackage = Except.ok u →
        u ≠ t →
        IncrementalInstallIncremental cfg env appPackage dm resourceApk startApp =
          (Except.error (Err.timestamp (verifyMismatchMsg appPackage)), 2,
            [Event.pull (DEVICE_DIRECTORY ++ "/" ++ appPackage ++ "/install_timestamp"),
             Event.shell ("dumpsys package " ++ appPackage)]) ∧
        ∀ e ∈ (IncrementalInstallIncremental cfg env appPackage dm resourceApk startApp).2.2,
          e.mutatesFile = false)
    ∧ (∀ t,
        (Adb.Pull cfg env 1
          (DEVICE_DIRECTORY ++ "/" ++ appPackage ++ "/install_timestamp")).1 =
            Except.ok (some t) →
        t ≠ "" →
        Adb.GetInstallTime cfg env appPackage = Except.ok t →
        ∃ tail,
          (IncrementalInstallIncremental cfg env appPackage dm resourceApk startApp).2.2 =
            Event.pull (DEVICE_DIRECTORY ++ "/" ++ appPackage ++ "/install_timestamp") ::
            Event.shell ("dumpsys package " ++ appPackage) ::
            Event.mkdir (DEVICE_DIRECTORY ++ "/" ++ appPackage ++ "/dex") :: tail) := by
  refine ⟨?_, ?_, ?_⟩
  · intro hp
    have hrun : IncrementalInstallIncremental cfg env appPackage dm resourceApk startApp =
        (Except.error (Err.timestamp verifyAbsentMsg), 2,
          [Event.pull (DEVICE_DIRECTORY ++ "/" ++ appPackage ++ "/install_timestamp")]) := by
      rcases hp with hp | hp <;>
      · have hp2 := pull_eq_of_fst cfg env 1 _ _ hp
        simp [IncrementalInstallIncremental, VerifyInstallTimestamp, hp2]
    refine ⟨hrun, ?_⟩
    rw [hrun]
    simp [Event.mutatesFile]
  · intro t u hp ht hgt hne
    have hp2 := pull_eq_of_fst cfg env 1 _ _ hp
    have hrun : IncrementalInstallIncremental cfg env appPackage dm resourceApk startApp =
        (Except.error (Err.timestamp (verifyMismatchMsg appPackage)), 2,
          [Event.pull (DEVICE_DIRECTORY ++ "/" ++ appPackage ++ "/install_timestamp"),
           Event.shell ("dumpsys package " ++ appPackage)]) := by
      simp [IncrementalInstallIncremental, VerifyInstallTimestamp, hp2, ht, hgt, hne]
    refine ⟨hrun, ?_⟩
    rw [hrun]
    simp [Event.mutatesFile]
  · intro t hp ht hgt
    have hp2 := pull_eq_of_fst cfg env 1 _ _ hp
    have hver : VerifyInstallTimestamp cfg env 1 appPackage =
        (Except.ok (), 2,
          [Event.pull (DEVICE_DIRECTORY ++ "/" ++ appPackage ++ "/install_timestamp"),
           Event.shell ("dumpsys package " ++ appPackage)]) := by
      simp [VerifyInstallTimestamp, hp2, ht, hgt]
    obtain ⟨rest, hrest⟩ := incremental_trace_prefix cfg env appPackage dm resourceApk
      startApp 2 _ hver
    obtain ⟨tail2, ht2⟩ := uploadDexes_head cfg env 2 (DEVICE_DIRECTORY ++ "/" ++ appPackage)
      cfg.tempDir dm false
    refine ⟨tail2 ++ rest, ?_⟩
    rw [hrest, ht2]
    simp

/-- Witness for `incremental_timestamp_guard`: a device with no anchor
(the pull reads back nothing) fails with the TimestampError without any
file-mutating event. -/
theorem incremental_timestamp_guard_witness :
    IncrementalInstallIncremental cfgW
        ⟨fun _ => ⟨0, "lastUpdateTime=2015", ""⟩, fun _ => none, fun _ => "d"⟩
        "pkg" "f1 - a 111" "res.ap_" false =
      (Except.error (Err.timestamp verifyAbsentMsg), 2,
        [Event.pull (DEVICE_DIRECTORY ++ "/" ++ "pkg" ++ "/install_timestamp")]) :=
  ((incremental_timestamp_guard cfgW
      ⟨fun _ => ⟨0, "lastUpdateTime=2015", ""⟩, fun _ => none, fun _ => "d"⟩
      "pkg" "f1 - a 111" "res.ap_" false).1 (Or.inl rfl)).1

end IncInstall

